import Mathlib

/-
Verification of the neuralxc basis-projection and index-padding core.

Shallow embedding of:
  - src/neuralxc/projector/projector_gaussian.py (GaussianProjector)
  - src/neuralxc/pyscf/pyscf.py (PySCFProjector, BasisPadder)

Machine floats are modelled as real numbers; numpy arrays as (nested) lists.
-/

namespace NeuralXC

/-! ## Generic list helpers (numpy select / scatter semantics)

`maskAssign m vs` models `row[mask] = vals` on a row that starts as zeros:
the k-th `true` position of the mask receives `vals[k]`, `false` positions
stay `0`.  `gatherMask m row` models `row[mask]` (boolean-mask gather). -/

def maskAssign {α : Type} [Zero α] : List Bool → List α → List α
  | true :: ms, v :: vs => v :: maskAssign ms vs
  | true :: ms, [] => 0 :: maskAssign ms []
  | false :: ms, vs => 0 :: maskAssign ms vs
  | [], _ => []

def gatherMask {α : Type} : List Bool → List α → List α
  | true :: ms, v :: vs => v :: gatherMask ms vs
  | false :: ms, _ :: vs => gatherMask ms vs
  | _ :: _, [] => []
  | [], _ => []

def countTrues (m : List Bool) : Nat := m.countP id

/-! ## Association-list dictionaries (Python `dict` with insertion order) -/

abbrev Species := String

def dlookup {α : Type} (d : List (Species × α)) (s : Species) : Option α :=
  (d.find? (fun p => p.1 == s)).map (fun p => p.2)

def dlookupD {α : Type} (d : List (Species × α)) (s : Species) (dflt : α) : α :=
  (dlookup d s).getD dflt

/-- Python `d[k] = v`: replace the value of an existing key in place,
append a new key at the end. -/
def dictSet {α : Type} (d : List (Species × α)) (k : Species) (v : α) :
    List (Species × α) :=
  if d.any (fun p => p.1 == k) then
    d.map (fun p => if p.1 == k then (k, v) else p)
  else d ++ [(k, v)]

/-- Python `d[k] = f(d[k])` on an existing key (no key is created). -/
def dictUpdate {α : Type} (d : List (Species × α)) (k : Species) (f : α → α) :
    List (Species × α) :=
  d.map (fun p => if p.1 == k then (p.1, f p.2) else p)

/-- Python `d.pop(k)`. -/
def dictErase {α : Type} (d : List (Species × α)) (k : Species) :
    List (Species × α) :=
  d.filter (fun p => ¬ p.1 == k)

/-! ## Model of the external pyscf molecule (spec section 6)

An atomic-orbital label carries the atom index, the species symbol, the
principal quantum number `n` and the angular momentum `l` (the letter code
`s,p,d,...` already decoded); one label per scalar coefficient, listed in
the external AO order.  The source tests membership with the formatted
substring `'{idx} {sym} {n}{letter}' in lab`, which on well-formed pyscf
label strings is exactly a match of these four fields. -/
structure AOLabel where
  atom : Nat
  sym : Species
  n : Nat
  l : Nat
deriving DecidableEq

structure Mol where
  atoms : List Species
  labels : List AOLabel
deriving DecidableEq

def naoOf (mol : Mol) : Nat := mol.labels.length

/-- Modelled from the spec: pyscf `mol.aoslice_by_atom()` (an external
collaborator) returns, per atom, the contiguous AO index range of that
atom; pyscf lists labels grouped by atom in atom order, so the range is
recovered by counting labels of earlier atoms. -/
def sliceStart (mol : Mol) (a : Nat) : Nat :=
  mol.labels.countP (fun lab => decide (lab.atom < a))

def sliceEnd (mol : Mol) (a : Nat) : Nat :=
  mol.labels.countP (fun lab => decide (lab.atom ≤ a))

/-! ## BasisPadder (pyscf.py lines 247-341) -/

def labMatches (idx : Nat) (s : Species) (n l : Nat) (lab : AOLabel) : Bool :=
  lab.atom == idx && lab.sym == s && lab.n == n && lab.l == l

/-- The test `any('{idx} {sym} {n}{letter}' in lab for lab in labels)`. -/
def matchNL (labels : List AOLabel) (idx : Nat) (s : Species) (n l : Nat) :
    Bool :=
  labels.any (labMatches idx s n l)

/-- The source's `np.where([...])[0][0]`: index of the first matching label. -/
def firstMatch (labels : List AOLabel) (idx : Nat) (s : Species) (n l : Nat) :
    Nat :=
  labels.findIdx (labMatches idx s n l)

/-- One atom's row of `indexing_left`/`indexing_right`: scan `(n, l)` for
`n` in `1..max_n` and `l` in `0..max_l`; a present combination appends
`2l+1` `True` mask slots and the source indices `sidx..sidx+2l`, an absent
one appends `2l+1` `False` slots. -/
def rowFor (labels : List AOLabel) (idx : Nat) (s : Species)
    (maxn maxl : Nat) : List Bool × List Nat :=
  (List.range' 1 maxn).foldl (fun acc n =>
    (List.range (maxl + 1)).foldl (fun acc2 l =>
      if matchNL labels idx s n l then
        (acc2.1 ++ List.replicate (2 * l + 1) true,
         acc2.2 ++ List.range' (firstMatch labels idx s n l) (2 * l + 1))
      else
        (acc2.1 ++ List.replicate (2 * l + 1) false, acc2.2)) acc)
    ([], [])

def maxNOf (mol : Mol) (s : Species) : Nat :=
  mol.labels.foldl (fun m lab => if lab.sym == s then max m lab.n else m) 0

def maxLOf (mol : Mol) (s : Species) : Nat :=
  mol.labels.foldl (fun m lab => if lab.sym == s then max m lab.l else m) 0

/-- Keys of the `max_n`/`max_l`/`indexing` dicts, in first-occurrence order
over the label list (Python dict insertion order). -/
def symsOf (mol : Mol) : List Species :=
  mol.labels.foldl
    (fun acc lab => if acc.contains lab.sym then acc else acc ++ [lab.sym]) []

/-- The atom indices of a species, in atom order (`sym_idx`). -/
def symIdx (mol : Mol) (s : Species) : List Nat :=
  (mol.atoms.enum.filter (fun p => p.2 == s)).map (fun p => p.1)

structure BasisPadder where
  mol : Mol
  syms : List Species
  sym_cnt : List (Species × Nat)
  max_n : List (Species × Nat)
  max_l : List (Species × Nat)
  indexing_l : List (Species × List (List Bool))
  indexing_r : List (Species × List (List Nat))
deriving DecidableEq

/-- BasisPadder.__init__ (pyscf.py lines 248-298). -/
def buildPadder (mol : Mol) : BasisPadder :=
  let syms := symsOf mol
  { mol := mol
    syms := syms
    sym_cnt := (mol.atoms.foldl
        (fun acc s => if acc.contains s then acc else acc ++ [s]) []).map
      (fun s => (s, mol.atoms.count s))
    max_n := syms.map (fun s => (s, maxNOf mol s))
    max_l := syms.map (fun s => (s, maxLOf mol s))
    indexing_l := syms.map (fun s =>
      (s, (symIdx mol s).map (fun idx =>
        (rowFor mol.labels idx s (maxNOf mol s) (maxLOf mol s)).1)))
    indexing_r := syms.map (fun s =>
      (s, (symIdx mol s).map (fun idx =>
        (rowFor mol.labels idx s (maxNOf mol s) (maxLOf mol s)).2))) }

namespace BasisPadder

/-- Padded width per species: `max_n * (max_l + 1)**2`. -/
def widthOf (bp : BasisPadder) (s : Species) : Nat :=
  dlookupD bp.max_n s 0 * (dlookupD bp.max_l s 0 + 1) ^ 2

/-- The Python `cnt[sym] += 1` update. -/
def bump (cnt : Species → Nat) (s : Species) : Species → Nat :=
  fun s' => if s' = s then cnt s + 1 else cnt s'

def maskOfAt (bp : BasisPadder) (s : Species) (c : Nat) : List Bool :=
  (dlookupD bp.indexing_l s []).getD c []

def rlOfAt (bp : BasisPadder) (s : Species) (c : Nat) : List Nat :=
  (dlookupD bp.indexing_r s []).getD c []

/-- The per-atom loop of `pad_basis`: for each atom (in atom order) place
`coeff[slice][indexing_r - slice_start]` into padded row `cnt[sym]` at the
`indexing_l` positions. -/
def padGo {α : Type} [Zero α] (bp : BasisPadder) (coeff : List α) :
    List (Nat × Species) → (Species → Nat) →
    List (Species × List (List α)) → List (Species × List (List α))
  | [], _, out => out
  | (aidx, s) :: rest, cnt, out =>
      let st := sliceStart bp.mol aidx
      let en := sliceEnd bp.mol aidx
      let c := cnt s
      let mask := maskOfAt bp s c
      let rl := rlOfAt bp s c
      let sub := (coeff.drop st).take (en - st)
      let vals := rl.map (fun r => sub.getD (r - st) 0)
      padGo bp coeff rest (bump cnt s)
        (dictUpdate out s (fun M => M.set c (maskAssign mask vals)))

/-- BasisPadder.pad_basis (pyscf.py lines 312-327). -/
def pad_basis {α : Type} [Zero α] (bp : BasisPadder) (coeff : List α) :
    List (Species × List (List α)) :=
  let init := bp.syms.map (fun s =>
    (s, List.replicate (dlookupD bp.sym_cnt s 0)
      (List.replicate (widthOf bp s) (0 : α))))
  padGo bp coeff bp.mol.atoms.enum (fun _ => 0) init

end BasisPadder

/-- A numpy array of either two or three dimensions, as accepted by
`unpad_basis`. -/
inductive PyArr (α : Type) where
  | arr2 : List (List α) → PyArr α
  | arr3 : List (List (List α)) → PyArr α
deriving DecidableEq

/-- The `if coeff_in.ndim == 3: coeff_in = coeff_in[0]` normalization. -/
def asMat {α : Type} : PyArr α → List (List α)
  | .arr2 m => m
  | .arr3 t => t.headD []

def wrapArr2 {α : Type} (d : List (Species × List (List α))) :
    List (Species × PyArr α) :=
  d.map (fun p => (p.1, PyArr.arr2 p.2))

namespace BasisPadder

/-- The scatter `coeff_out[slice][indexing_r - slice_start] = gathered`
performed for one atom (numpy fancy-index assignment, position by
position). -/
def writeRow {α : Type} (st : Nat) (pairs : List (Nat × α))
    (out : List α) : List α :=
  pairs.foldl (fun o p => o.set (st + (p.1 - st)) p.2) out

/-- The per-atom loop of `unpad_basis`. -/
def unpadGo {α : Type} [Zero α] (bp : BasisPadder)
    (coeff : List (Species × PyArr α)) :
    List (Nat × Species) → (Species → Nat) → List α → List α
  | [], _, out => out
  | (aidx, s) :: rest, cnt, out =>
      let st := sliceStart bp.mol aidx
      let c := cnt s
      let mask := maskOfAt bp s c
      let rl := rlOfAt bp s c
      let M := asMat ((dlookup coeff s).getD (PyArr.arr2 []))
      let gathered := gatherMask mask (M.getD c [])
      unpadGo bp coeff rest (bump cnt s) (writeRow st (rl.zip gathered) out)

/-- BasisPadder.unpad_basis (pyscf.py lines 329-340). -/
def unpad_basis {α : Type} [Zero α] (bp : BasisPadder)
    (coeff : List (Species × PyArr α)) : List α :=
  unpadGo bp coeff bp.mol.atoms.enum (fun _ => 0)
    (List.replicate (naoOf bp.mol) 0)

end BasisPadder

/-! ### Per-atom views used in theorem statements -/

def atomSym (bp : BasisPadder) (k : Nat) : Species := bp.mol.atoms.getD k ""

/-- Occurrence index of atom `k` among the atoms of its own species;
this is the value of `cnt[sym]` when the per-atom loops reach atom `k`. -/
def occAt (bp : BasisPadder) (k : Nat) : Nat :=
  (bp.mol.atoms.take k).count (atomSym bp k)

def maskAt (bp : BasisPadder) (k : Nat) : List Bool :=
  BasisPadder.maskOfAt bp (atomSym bp k) (occAt bp k)

def rlAt (bp : BasisPadder) (k : Nat) : List Nat :=
  BasisPadder.rlOfAt bp (atomSym bp k) (occAt bp k)

def sAt (bp : BasisPadder) (k : Nat) : Nat := sliceStart bp.mol k

def eAt (bp : BasisPadder) (k : Nat) : Nat := sliceEnd bp.mol k

/-! ## PySCFProjector, species-agnostic mode (pyscf.py lines 219-244) -/

namespace PySCFProjector

/-- `self.spec_partition = {sym: len(coeff[sym]) for sym in coeff}`. -/
def specPartition {α : Type} (coeff : List (Species × List (List α))) :
    List (Species × Nat) :=
  coeff.map (fun p => (p.1, p.2.length))

/-- `np.concatenate([coeff[sym] for sym in coeff], axis=0)`. -/
def concatAgn {α : Type} (coeff : List (Species × List (List α))) :
    List (List α) :=
  (coeff.map (fun p => p.2)).flatten

/-- Numpy `X[:, i:i+len]`: a slice along the second axis. -/
def sliceAx1 {α : Type} : PyArr α → Nat → Nat → PyArr α
  | .arr2 M, i, len => .arr2 (M.map (fun row => (row.drop i).take len))
  | .arr3 T, i, len => .arr3 (T.map (fun mat => (mat.drop i).take len))

/-- The loop of `get_V` in agnostic mode:
`dEdC[sym] = dEdC['X'][:, running_idx:running_idx+spec_partition[sym]]`. -/
def getVLoop {α : Type} :
    List (Species × Nat) → Nat → List (Species × PyArr α) →
    List (Species × PyArr α)
  | [], _, d => d
  | (s, cntS) :: rest, idx, d =>
      let X := (dlookup d "X").getD (PyArr.arr2 [])
      getVLoop rest (idx + cntS) (dictSet d s (sliceAx1 X idx cntS))

/-- The dictionary transformation performed by `get_V` in agnostic mode:
split `dEdC['X']` at the recorded boundaries, then `dEdC.pop('X')`. -/
def getV_split {α : Type} (part : List (Species × Nat))
    (d : List (Species × PyArr α)) : List (Species × PyArr α) :=
  dictErase (getVLoop part 0 d) "X"

end PySCFProjector

end NeuralXC

namespace NeuralXC

/-! ## GaussianProjector radial functions (projector_gaussian.py) -/

/-- GAMMA table from projector_gaussian.py line 19:
`np.array([1/2,3/4,15/8,105/16,945/32,10395/64,135135/128])*np.sqrt(np.pi)`.
Out-of-range indices are modelled with a `0` default. -/
noncomputable def GAMMA (l : Nat) : ℝ :=
  ([1/2, 3/4, 15/8, 105/16, 945/32, 10395/64, 135135/128].getD l 0) *
    Real.sqrt Real.pi

namespace GaussianProjector

/-- One summand of the accumulated normalization constant in `g`:
`(2*a)**(l/2+3/4)*np.sqrt(2)/np.sqrt(GAMMA[l])`. -/
noncomputable def normConst (a : ℝ) (l : Nat) : ℝ :=
  (2 * a) ^ ((l : ℝ) / 2 + 3 / 4) * Real.sqrt 2 / Real.sqrt (GAMMA l)

/-- The smooth cutoff envelope `1-(.5*(1-np.cos(np.pi*r/r_o)))**8`. -/
noncomputable def fcut (r romax : ℝ) : ℝ :=
  1 - (1 / 2 * (1 - Real.cos (Real.pi * r / romax))) ^ 8

/-- Value of `np.max` on a list of reals (callers pass a non-empty list). -/
def maxList : List ℝ → ℝ
  | [] => 0
  | x :: xs => xs.foldl max x

/-- GaussianProjector.g (projector_gaussian.py lines 134-145), evaluated at a
single radius `r`.  The loop `for a, c in zip(alpha, coeff)` accumulates both
the normalization constant `N` and the contracted sum `f`; the final value is
`f * (r**l * fc * N)`, clamped to `0` for `r` strictly beyond `max(r_o)`. -/
noncomputable def g (r : ℝ) (r_o : List ℝ) (alpha : List ℝ) (l : Nat)
    (coeff : List ℝ) : ℝ :=
  let romax := maxList r_o
  let fc := fcut r romax
  let Nf := (alpha.zip coeff).foldl
    (fun (p : ℝ × ℝ) (ac : ℝ × ℝ) =>
      (p.1 + normConst ac.1 l, p.2 + Real.exp (-ac.1 * r ^ 2) * ac.2))
    (0, 0)
  if r > romax then 0 else Nf.2 * (r ^ l * fc * Nf.1)

/-- Modelled from the spec: the radial formula as the spec states it, with
each primitive Gaussian individually normalized by its own constant before
summation (spec section 4.1 and claim C3).  Used only to compare against the
source definition `g`. -/
noncomputable def gClaimed (r : ℝ) (r_o : List ℝ) (alpha : List ℝ) (l : Nat)
    (coeff : List ℝ) : ℝ :=
  let romax := maxList r_o
  let fc := fcut r romax
  let f := ((alpha.zip coeff).map
    (fun ac => normConst ac.1 l * ac.2 * Real.exp (-ac.1 * r ^ 2))).sum
  if r > romax then 0 else f * (r ^ l * fc)

/-- One parsed shell of `basis_instructions` as produced by `parse_basis`:
`alpha`, `r_o` and `coeff` each hold one list per contracted pyscf shell
(`b['alpha'][ib]` etc.). -/
structure Shell where
  l : Nat
  alpha : List (List ℝ)
  r_o : List (List ℝ)
  coeff : List (List ℝ)

/-- Modelled from the spec: `DefaultProjector.box_around`, `angulars_real`
and the `V_cell` grid weights live in `neuralxc/projector/projector.py`,
which is not under src/; the external `gto` basis parser is a pyscf
collaborator.  Per spec sections 2-4 they are pure functions of their
arguments: `box_around` yields, per in-range grid point, its flat mesh
index, radial distance and two angular coordinates; `angulars_real l`
yields the `2l+1` spherical-harmonic rows; `V_cell` is the per-point
volume weight array; `parseMolO` builds the one-species molecule
`gto.M(atom='O 0 0 0', basis=...)` used by `project` for padding. -/
structure GridEnv where
  box_around : (ℝ × ℝ × ℝ) → ℝ → List (Nat × ℝ × ℝ × ℝ)
  angulars_real : Nat → List (ℝ × ℝ) → List (List ℝ)
  V_cell : List ℝ
  parseMolO : String → Mol

/-- The einsum contraction `sum_i a_i * b_i * c_i`. -/
def sum3 (a b c : List ℝ) : ℝ :=
  ((a.zip (b.zip c)).map (fun t => t.1 * t.2.1 * t.2.2)).sum

/-- GaussianProjector.radials (projector_gaussian.py lines 151-162), list
branch: one list of radial arrays per shell, one array per contracted
pyscf shell `ib`. -/
noncomputable def radials (r : List ℝ) (basis : List Shell) :
    List (List (List ℝ)) :=
  basis.map (fun b => (List.range b.alpha.length).map (fun i =>
    r.map (fun rv =>
      g rv (b.r_o.getD i []) (b.alpha.getD i []) b.l (b.coeff.getD i []))))

/-- GaussianProjector.project (projector_gaussian.py lines 70-131), for a
flat density (`rho.ndim == 1` branch with `V_cell` an ndarray of grid
weights).  The `angs` argument is accepted and ignored, exactly as in the
source, and the returned angular grid is `None` (line 131). -/
noncomputable def project (env : GridEnv) (rho : List ℝ) (pos : ℝ × ℝ × ℝ)
    (basis_instructions : List Shell) (basis_string : String)
    (_angs : Option Unit) : List (List ℝ) × Option Unit :=
  let romaxall :=
    maxList (basis_instructions.map (fun b => maxList b.r_o.flatten))
  let box := env.box_around pos romaxall
  let coeffs := basis_instructions.foldl (fun acc b =>
    let romaxb := maxList b.r_o.flatten
    let pts := box.filter (fun p => decide (p.2.1 ≤ romaxb))
    let ang := env.angulars_real b.l (pts.map (fun p => p.2.2))
    let rad := (radials (pts.map (fun p => p.2.1)) [b]).headD []
    let weights := pts.map (fun p => env.V_cell.getD p.1 0)
    let radw := rad.map (fun row => row.zipWith (fun x w => x * w) weights)
    let rhosub := pts.map (fun p => rho.getD p.1 0)
    let c := radw.map (fun radrow => ang.map (fun angrow =>
      sum3 rhosub angrow radrow))
    acc ++ c.flatten) []
  let mol := env.parseMolO basis_string
  let bp := buildPadder mol
  let padded := dlookupD (BasisPadder.pad_basis bp coeffs) "O" []
  ([padded.flatten], none)

/-- One cache entry of `self.all_angs`, keyed by the atom's species and
position (the source key is the formatted string
`'{}{}{}{}'.format(spec, pos[0], pos[1], pos[2])`). -/
abbrev AngCache := List ((Species × (ℝ × ℝ × ℝ)) × Option Unit)

noncomputable def cacheGet (cache : AngCache) (k : Species × (ℝ × ℝ × ℝ)) :
    Option Unit :=
  ((cache.find? (fun p => p.1 == k)).map (fun p => p.2)).getD none

noncomputable def cacheSet (cache : AngCache) (k : Species × (ℝ × ℝ × ℝ))
    (v : Option Unit) : AngCache :=
  if cache.any (fun p => p.1 == k) then
    cache.map (fun p => if p.1 == k then (k, v) else p)
  else cache ++ [(k, v)]

/-- The `for pos, spec in zip(positions, species)` loop of
GaussianProjector.get_basis_rep (projector_gaussian.py lines 51-62):
`basis_rep[spec]` starts as `[]` on first sight of a species, the species
basis and basis string are looked up (a missing key raises), `project` is
called with the cached angular grid, and the cache is written only when
`config.UseMemory` is set. -/
noncomputable def gbrGo (env : GridEnv) (useMem : Bool)
    (basisD : List (Species × List Shell))
    (stringsD : List (Species × String)) (rho : List ℝ) :
    List ((ℝ × ℝ × ℝ) × Species) →
    List (Species × List (List (List ℝ))) → AngCache →
    Except String (List (Species × List (List (List ℝ))) × AngCache)
  | [], acc, cache => .ok (acc, cache)
  | (pos, spec) :: rest, acc, cache =>
      let acc1 := if acc.any (fun p => p.1 == spec) then acc
        else acc ++ [(spec, [])]
      match dlookup basisD spec with
      | none => .error spec
      | some basis =>
          match dlookup stringsD spec with
          | none => .error spec
          | some bstr =>
              let pr := project env rho pos basis bstr
                (cacheGet cache (spec, pos))
              let acc2 := dictUpdate acc1 spec (fun lst => lst ++ [pr.1])
              let cache2 := if useMem then cacheSet cache (spec, pos) pr.2
                else cache
              gbrGo env useMem basisD stringsD rho rest acc2 cache2

/-- GaussianProjector.get_basis_rep (projector_gaussian.py lines 34-67):
iterate over `zip(positions, species)`, then concatenate each species'
list of `(1, w)` projections along axis 0. -/
noncomputable def get_basis_rep (env : GridEnv) (useMem : Bool)
    (basisD : List (Species × List Shell))
    (stringsD : List (Species × String)) (cache : AngCache) (rho : List ℝ)
    (positions : List (ℝ × ℝ × ℝ)) (species : List Species) :
    Except String (List (Species × List (List ℝ)) × AngCache) :=
  match gbrGo env useMem basisD stringsD rho (positions.zip species) []
    cache with
  | .error e => .error e
  | .ok (acc, cache2) => .ok (acc.map (fun p => (p.1, p.2.flatten)), cache2)

/-! ### Concrete instances used by witnesses and counterexamples -/

/-- A one-atom, one-orbital molecule (an `O 1s` label). -/
def molO0 : Mol := { atoms := ["O"], labels := [⟨0, "O", 1, 0⟩] }

/-- A concrete grid environment whose window is empty (a valid window per
spec section 7: an empty window is not an error). -/
def envEx : GridEnv :=
  { box_around := fun _ _ => []
    angulars_real := fun _ _ => []
    V_cell := []
    parseMolO := fun _ => molO0 }

def shellEx : Shell := { l := 0, alpha := [[1]], r_o := [[1]], coeff := [[1]] }

def basisEx : List (Species × List Shell) :=
  [("O", [shellEx]), ("H", [shellEx])]

def stringsEx : List (Species × String) := [("O", "b"), ("H", "b")]

def positionsEx : List (ℝ × ℝ × ℝ) := [(0, 0, 0)]

def speciesEx : List Species := ["O", "H"]

def rhoEx : List ℝ := []

end GaussianProjector

end NeuralXC

namespace NeuralXC
namespace GaussianProjector

/-! ### Basic facts about `g` -/

lemma gLoop_eq_sums (r : ℝ) (l : Nat) (ps : List (ℝ × ℝ)) (N0 f0 : ℝ) :
    ps.foldl
      (fun (p : ℝ × ℝ) (ac : ℝ × ℝ) =>
        (p.1 + normConst ac.1 l, p.2 + Real.exp (-ac.1 * r ^ 2) * ac.2))
      (N0, f0) =
    (N0 + (ps.map (fun ac => normConst ac.1 l)).sum,
     f0 + (ps.map (fun ac => Real.exp (-ac.1 * r ^ 2) * ac.2)).sum) := by
  induction ps generalizing N0 f0 with
  | nil => simp
  | cons p ps ih =>
      simp only [List.foldl_cons, List.map_cons, List.sum_cons, ih]
      rw [Prod.mk.injEq]
      constructor <;> ring

lemma g_eval (r : ℝ) (r_o : List ℝ) (alpha : List ℝ) (l : Nat)
    (coeff : List ℝ) (h : ¬ r > maxList r_o) :
    g r r_o alpha l coeff =
      ((alpha.zip coeff).map
        (fun ac => Real.exp (-ac.1 * r ^ 2) * ac.2)).sum *
      (r ^ l * fcut r (maxList r_o) *
        ((alpha.zip coeff).map (fun ac => normConst ac.1 l)).sum) := by
  unfold g
  rw [gLoop_eq_sums]
  simp [h]

lemma GAMMA_zero_pos : 0 < GAMMA 0 := by
  unfold GAMMA
  simp only [List.getD]
  norm_num
  positivity

lemma normConst_pos {a : ℝ} (ha : 0 < a) : 0 < normConst a 0 := by
  unfold normConst
  have h2a : (0 : ℝ) < 2 * a := by linarith
  have h1 : (0 : ℝ) < (2 * a) ^ ((0 : ℕ) / 2 + 3 / 4 : ℝ) :=
    Real.rpow_pos_of_pos h2a _
  have h2 : (0 : ℝ) < Real.sqrt 2 := Real.sqrt_pos.mpr (by norm_num)
  have h3 : (0 : ℝ) < Real.sqrt (GAMMA 0) := Real.sqrt_pos.mpr GAMMA_zero_pos
  positivity

/-- C3 (counterexample): with two primitives `alpha = [1, 2]`,
`coeff = [1, 1]`, `l = 0`, `r = 1 < r_o = 2`, the value computed by the
source function `g` differs from the spec's formula (each primitive
normalized individually before summation): the source multiplies the whole
contracted sum by the *sum* of the normalization constants. -/
theorem gaussian_g_counterexample :
    g 1 [2] [1, 2] 0 [1, 1] ≠ gClaimed 1 [2] [1, 2] 0 [1, 1] := by
  have hmax : maxList [2] = 2 := rfl
  have hng : ¬ (1 : ℝ) > maxList [2] := by rw [hmax]; norm_num
  have hfc : fcut 1 (maxList [2]) = 255 / 256 := by
    rw [hmax]
    unfold fcut
    rw [show Real.pi * 1 / 2 = Real.pi / 2 by ring, Real.cos_pi_div_two]
    norm_num
  rw [g_eval _ _ _ _ _ hng]
  unfold gClaimed
  simp only [hng, if_false, List.zip_cons_cons, List.zip_nil_right,
    List.map_cons, List.map_nil, List.sum_cons, List.sum_nil, hfc]
  have hN1 : 0 < normConst 1 0 := normConst_pos one_pos
  have hN2 : 0 < normConst 2 0 := normConst_pos two_pos
  intro heq
  ring_nf at heq
  linarith [mul_pos (Real.exp_pos (-1)) hN2, mul_pos (Real.exp_pos (-2)) hN1]

/-- C3 (amended): for `r` within the cutoff, `GaussianProjector.g` returns
the contracted sum `sum_i coeff_i * exp(-alpha_i * r^2)` multiplied by
`r^l`, by the envelope `1-(0.5*(1-cos(pi*r/max r_o)))^8`, and by the *sum*
over primitives of the per-primitive normalization constants (the
primitives are not individually normalized); beyond `max r_o` the value is
clamped to `0` by the source. -/
theorem gaussian_g_formula (r : ℝ) (r_o alpha : List ℝ) (l : Nat)
    (coeff : List ℝ) (h : r ≤ maxList r_o) :
    g r r_o alpha l coeff =
      ((alpha.zip coeff).map
        (fun ac => Real.exp (-ac.1 * r ^ 2) * ac.2)).sum *
      (r ^ l * fcut r (maxList r_o) *
        ((alpha.zip coeff).map (fun ac => normConst ac.1 l)).sum) :=
  g_eval r r_o alpha l coeff (not_lt.mpr h)

/-- Witness for the amended C3 theorem at a concrete input. -/
theorem gaussian_g_formula_witness :
    (0 : ℝ) ≤ maxList [1] ∧
    g 0 [1] [1] 0 [1] =
      ((([1] : List ℝ).zip [1]).map
        (fun ac => Real.exp (-ac.1 * (0 : ℝ) ^ 2) * ac.2)).sum *
      ((0 : ℝ) ^ (0 : Nat) * fcut 0 (maxList [1]) *
        ((([1] : List ℝ).zip [1]).map (fun ac => normConst ac.1 0)).sum) :=
  ⟨by norm_num [maxList], gaussian_g_formula 0 [1] [1] 0 [1]
    (by norm_num [maxList])⟩

/-- C4: for every shell, `GaussianProjector.g` is exactly `0` at every
radius `r ≥ max r_o`: radii strictly beyond the cutoff are clamped to `0`
by the source, and at `r = max r_o` the envelope
`1-(0.5*(1-cos(pi)))^8 = 0` makes the value exactly `0`. -/
theorem gaussian_g_cutoff (r : ℝ) (r_o alpha : List ℝ) (l : Nat)
    (coeff : List ℝ) (h0 : 0 < maxList r_o) (hr : maxList r_o ≤ r) :
    g r r_o alpha l coeff = 0 := by
  by_cases hgt : r > maxList r_o
  · simp [g, hgt]
  · have hreq : r = maxList r_o := le_antisymm (not_lt.mp hgt) hr
    rw [g_eval _ _ _ _ _ hgt]
    have hfc : fcut r (maxList r_o) = 0 := by
      unfold fcut
      rw [hreq, mul_div_assoc, div_self (ne_of_gt h0), mul_one, Real.cos_pi]
      norm_num
    rw [hfc]
    ring

/-- Witness for C4 at a concrete input. -/
theorem gaussian_g_cutoff_witness :
    (0 : ℝ) < maxList [1] ∧ maxList [1] ≤ (1 : ℝ) ∧
    g 1 [1] [1] 0 [1] = 0 :=
  ⟨by norm_num [maxList], by norm_num [maxList],
    gaussian_g_cutoff 1 [1] [1] 0 [1] (by norm_num [maxList])
      (by norm_num [maxList])⟩

/-- C8: at `r = 0` (with a positive cutoff), `GaussianProjector.g` returns
the normalization-scaled contracted value `(sum coeff) * (sum of the
normalization constants)` when `l = 0`, and exactly `0` when `l > 0`
because of the `r^l` factor. -/
theorem gaussian_g_at_origin (r_o alpha : List ℝ) (l : Nat)
    (coeff : List ℝ) (h0 : 0 < maxList r_o) :
    (l = 0 → g 0 r_o alpha l coeff =
      ((alpha.zip coeff).map (fun ac => ac.2)).sum *
      ((alpha.zip coeff).map (fun ac => normConst ac.1 l)).sum) ∧
    (0 < l → g 0 r_o alpha l coeff = 0) := by
  have hng : ¬ (0 : ℝ) > maxList r_o := not_lt.mpr (le_of_lt h0)
  have hfc : fcut 0 (maxList r_o) = 1 := by
    unfold fcut
    rw [mul_zero, zero_div, Real.cos_zero]
    norm_num
  constructor
  · intro hl
    subst hl
    rw [g_eval _ _ _ _ _ hng, hfc]
    have hexp : (fun (ac : ℝ × ℝ) => Real.exp (-ac.1 * (0 : ℝ) ^ 2) * ac.2) =
        fun ac => ac.2 := by
      funext ac
      simp
    rw [hexp]
    ring
  · intro hl
    rw [g_eval _ _ _ _ _ hng, zero_pow hl.ne']
    ring

/-- Witness for C8 at a concrete input with `l = 1`. -/
theorem gaussian_g_at_origin_witness :
    (0 : ℝ) < maxList [1] ∧ g 0 [1] [1] 1 [1] = 0 :=
  ⟨by norm_num [maxList],
    (gaussian_g_at_origin [1] [1] 1 [1] (by norm_num [maxList])).2
      (by norm_num)⟩

end GaussianProjector
end NeuralXC


namespace NeuralXC

/-! ### Dictionary lemmas -/

lemma dlookup_cons {α : Type} (p : Species × α) (d : List (Species × α))
    (k : Species) :
    dlookup (p :: d) k = if p.1 = k then some p.2 else dlookup d k := by
  by_cases hp : p.1 = k <;> simp [dlookup, hp]

lemma dlookup_append {α : Type} (d e : List (Species × α)) (k : Species) :
    dlookup (d ++ e) k = (dlookup d k).or (dlookup e k) := by
  unfold dlookup
  rw [List.find?_append]
  cases d.find? (fun p => p.1 == k) <;> simp

lemma dlookup_of_any_false {α : Type} {d : List (Species × α)} {k : Species}
    (h : d.any (fun p => p.1 == k) = false) : dlookup d k = none := by
  have hall : ∀ x ∈ d, ¬ (x.1 == k) = true := by
    simpa [List.any_eq_false] using h
  unfold dlookup
  rw [List.find?_eq_none.mpr hall]
  rfl

lemma dlookup_dictSet_self {α : Type} (d : List (Species × α)) (k : Species)
    (v : α) : dlookup (dictSet d k v) k = some v := by
  unfold dictSet
  by_cases hany : d.any (fun p => p.1 == k) = true
  · rw [if_pos hany]
    induction d with
    | nil => simp at hany
    | cons p d ih =>
        by_cases hp : p.1 = k
        · simp [dlookup_cons, hp]
        · have hf : (p.1 == k) = false := by simp [hp]
          have hany2 : d.any (fun p => p.1 == k) = true := by
            simpa [List.any_cons, hf] using hany
          simp only [List.map_cons, hf, Bool.false_eq_true, if_false]
          rw [dlookup_cons, if_neg hp]
          exact ih hany2
  · rw [if_neg hany, dlookup_append,
      dlookup_of_any_false (Bool.not_eq_true _ ▸ hany)]
    simp [dlookup_cons]

lemma dlookup_mapset_ne {α : Type} (d : List (Species × α))
    (k k' : Species) (v : α) (h : k' ≠ k) :
    dlookup (d.map (fun p => if p.1 == k then (k, v) else p)) k' =
      dlookup d k' := by
  induction d with
  | nil => rfl
  | cons p d ih =>
      by_cases hp : p.1 = k
      · simp only [List.map_cons, hp, beq_self_eq_true, if_true]
        rw [dlookup_cons, dlookup_cons, if_neg (fun he : k = k' => h he.symm),
          if_neg (fun he : p.1 = k' => h (hp ▸ he).symm)]
        exact ih
      · have hf : (p.1 == k) = false := by simp [hp]
        simp only [List.map_cons, hf, Bool.false_eq_true, if_false]
        rw [dlookup_cons, dlookup_cons]
        exact if_congr Iff.rfl rfl ih

lemma dlookup_dictSet_ne {α : Type} (d : List (Species × α))
    (k k' : Species) (v : α) (h : k' ≠ k) :
    dlookup (dictSet d k v) k' = dlookup d k' := by
  unfold dictSet
  by_cases hany : d.any (fun p => p.1 == k) = true
  · rw [if_pos hany]
    exact dlookup_mapset_ne d k k' v h
  · rw [if_neg hany, dlookup_append]
    rw [dlookup_cons]
    simp only [if_neg (fun he : k = k' => h he.symm)]
    cases hd : dlookup d k' <;> simp [dlookup]

lemma dlookup_dictUpdate_self {α : Type} (d : List (Species × α))
    (k : Species) (f : α → α) :
    dlookup (dictUpdate d k f) k = (dlookup d k).map f := by
  unfold dictUpdate
  induction d with
  | nil => rfl
  | cons p d ih =>
      by_cases hp : p.1 = k
      · simp [dlookup_cons, hp]
      · have hf : (p.1 == k) = false := by simp [hp]
        simp only [List.map_cons, hf, Bool.false_eq_true, if_false]
        rw [dlookup_cons, dlookup_cons, if_neg hp, if_neg hp]
        exact ih

lemma dlookup_dictUpdate_ne {α : Type} (d : List (Species × α))
    (k k' : Species) (f : α → α) (h : k' ≠ k) :
    dlookup (dictUpdate d k f) k' = dlookup d k' := by
  unfold dictUpdate
  induction d with
  | nil => rfl
  | cons p d ih =>
      by_cases hp : p.1 = k
      · have hkk : ¬ k = k' := fun he => h he.symm
        simp only [List.map_cons, hp, beq_self_eq_true, if_true,
          dlookup_cons, hkk, if_false]
        exact ih
      · have hf : (p.1 == k) = false := by simp [hp]
        simp only [List.map_cons, hf, Bool.false_eq_true, if_false]
        rw [dlookup_cons, dlookup_cons]
        exact if_congr Iff.rfl rfl ih

lemma dlookup_dictErase_self {α : Type} (d : List (Species × α))
    (k : Species) : dlookup (dictErase d k) k = none := by
  unfold dictErase
  induction d with
  | nil => rfl
  | cons p d ih =>
      by_cases hp : p.1 = k
      · simpa [List.filter_cons, hp] using ih
      · have hf : (p.1 == k) = false := by simp [hp]
        simpa [List.filter_cons, hf, dlookup_cons, hp] using ih

lemma dlookup_dictErase_ne {α : Type} (d : List (Species × α))
    (k k' : Species) (h : k' ≠ k) :
    dlookup (dictErase d k) k' = dlookup d k' := by
  unfold dictErase
  induction d with
  | nil => rfl
  | cons p d ih =>
      by_cases hp : p.1 = k
      · have hkk : ¬ k = k' := fun he => h he.symm
        simpa [List.filter_cons, hp, dlookup_cons, hkk] using ih
      · have hf : (p.1 == k) = false := by simp [hp]
        rw [List.filter_cons, if_pos (by simp [hf])]
        rw [dlookup_cons, dlookup_cons]
        exact if_congr Iff.rfl rfl ih

lemma dlookup_wrapArr2 {α : Type} (d : List (Species × List (List α)))
    (s : Species) :
    dlookup (wrapArr2 d) s = (dlookup d s).map PyArr.arr2 := by
  unfold wrapArr2
  induction d with
  | nil => rfl
  | cons p d ih =>
      rw [List.map_cons, dlookup_cons, dlookup_cons]
      by_cases hp : p.1 = s
      · simp [hp]
      · simp only [hp, if_false]
        exact ih

lemma dlookup_map_of_mem {α : Type} (syms : List Species)
    (F : Species → α) (s : Species) (h : s ∈ syms) :
    dlookup (syms.map (fun s' => (s', F s'))) s = some (F s) := by
  induction syms with
  | nil => simp at h
  | cons p d ih =>
      rw [List.map_cons, dlookup_cons]
      by_cases hp : p = s
      · simp [hp]
      · simp only [hp, if_false]
        exact ih (by
          rcases List.mem_cons.mp h with h1 | h1
          · exact absurd h1.symm hp
          · exact h1)

end NeuralXC

namespace NeuralXC

/-! ### C10: unpad_basis and 3-dimensional inputs -/

lemma unpadGo_congr {α : Type} [Zero α] (bp : BasisPadder)
    (c1 c2 : List (Species × PyArr α))
    (h : ∀ s, asMat ((dlookup c1 s).getD (PyArr.arr2 [])) =
      asMat ((dlookup c2 s).getD (PyArr.arr2 [])))
    (todo : List (Nat × Species)) :
    ∀ cnt out, BasisPadder.unpadGo bp c1 todo cnt out =
      BasisPadder.unpadGo bp c2 todo cnt out := by
  induction todo with
  | nil => intro cnt out; rfl
  | cons hd rest ih =>
      intro cnt out
      obtain ⟨aidx, s⟩ := hd
      simp only [BasisPadder.unpadGo]
      rw [h s]
      apply ih

/-- C10: `unpad_basis` accepts per-species arrays of two or three
dimensions; a 3-D array is replaced by its first 2-D slice
(`coeff_in[0]`), so all other leading-axis slices are ignored: replacing
the 3-D entry by its leading 2-D slice leaves the result unchanged. -/
theorem unpad_basis_ndim3 {α : Type} [Zero α] (bp : BasisPadder)
    (d : List (Species × PyArr α)) (s : Species) (x : List (List α))
    (rest : List (List (List α)))
    (h : dlookup d s = some (PyArr.arr3 (x :: rest))) :
    BasisPadder.unpad_basis bp d =
      BasisPadder.unpad_basis bp (dictSet d s (PyArr.arr2 x)) := by
  unfold BasisPadder.unpad_basis
  apply unpadGo_congr
  intro s'
  by_cases hs : s' = s
  · subst hs
    rw [h, dlookup_dictSet_self]
    rfl
  · rw [dlookup_dictSet_ne _ _ _ _ hs]

/-- Witness for C10 on a concrete padder and a 3-D entry with two slices. -/
theorem unpad_basis_ndim3_witness :
    dlookup [("O", PyArr.arr3 [[[(7 : Int)]], [[9]]])] "O" =
      some (PyArr.arr3 ([[(7 : Int)]] :: [[[9]]])) ∧
    BasisPadder.unpad_basis (buildPadder GaussianProjector.molO0)
        [("O", PyArr.arr3 [[[(7 : Int)]], [[9]]])] =
      BasisPadder.unpad_basis (buildPadder GaussianProjector.molO0)
        (dictSet [("O", PyArr.arr3 [[[(7 : Int)]], [[9]]])] "O"
          (PyArr.arr2 [[7]])) :=
  ⟨by decide,
    unpad_basis_ndim3 (buildPadder GaussianProjector.molO0) _ "O"
      [[(7 : Int)]] [[[9]]] (by decide)⟩

/-! ### C9: get_V mutates the gradient dictionary in agnostic mode -/

lemma getVLoop_lookup_X {α : Type} (part : List (Species × Nat))
    (hs : ∀ p ∈ part, p.1 ≠ "X") :
    ∀ (i : Nat) (d : List (Species × PyArr α)),
      dlookup (PySCFProjector.getVLoop part i d) "X" = dlookup d "X" := by
  induction part with
  | nil => intro i d; rfl
  | cons hd rest ih =>
      intro i d
      obtain ⟨s, n⟩ := hd
      simp only [PySCFProjector.getVLoop]
      rw [ih (fun p hp => hs p (List.mem_cons_of_mem _ hp)),
        dlookup_dictSet_ne _ _ _ _ (Ne.symm (hs (s, n) (List.mem_cons_self _ _)))]

lemma getVLoop_exists {α : Type} (part : List (Species × Nat)) :
    ∀ (i : Nat) (d : List (Species × PyArr α)) (s : Species),
      (∃ a, dlookup d s = some a) →
      ∃ a, dlookup (PySCFProjector.getVLoop part i d) s = some a := by
  induction part with
  | nil => intro i d s h; exact h
  | cons hd rest ih =>
      intro i d s h
      obtain ⟨s', n⟩ := hd
      simp only [PySCFProjector.getVLoop]
      apply ih
      by_cases hss : s = s'
      · subst hss
        exact ⟨_, dlookup_dictSet_self _ _ _⟩
      · rw [dlookup_dictSet_ne _ _ _ _ hss]
        exact h

lemma getVLoop_mem_exists {α : Type} (part : List (Species × Nat)) :
    ∀ (i : Nat) (d : List (Species × PyArr α)) (p : Species × Nat),
      p ∈ part →
      ∃ a, dlookup (PySCFProjector.getVLoop part i d) p.1 = some a := by
  induction part with
  | nil => intro i d p hp; simp at hp
  | cons hd rest ih =>
      intro i d p hp
      obtain ⟨s', n⟩ := hd
      rcases List.mem_cons.mp hp with h1 | h1
      · subst h1
        simp only [PySCFProjector.getVLoop]
        apply getVLoop_exists
        exact ⟨_, dlookup_dictSet_self _ _ _⟩
      · simp only [PySCFProjector.getVLoop]
        exact ih _ _ _ h1

/-- C9: in species-agnostic mode, the `get_V` dictionary phase removes the
key `'X'` and inserts one entry per species of the recorded partition, so
the gradient dictionary is not left unchanged. -/
theorem getV_split_mutates {α : Type} (part : List (Species × Nat))
    (d : List (Species × PyArr α)) (gX : PyArr α)
    (hg : dlookup d "X" = some gX) (hs : ∀ p ∈ part, p.1 ≠ "X") :
    dlookup (PySCFProjector.getV_split part d) "X" = none ∧
    (∀ p ∈ part, ∃ a,
      dlookup (PySCFProjector.getV_split part d) p.1 = some a) ∧
    PySCFProjector.getV_split part d ≠ d := by
  have hXnone : dlookup (PySCFProjector.getV_split part d) "X" = none := by
    unfold PySCFProjector.getV_split
    exact dlookup_dictErase_self _ _
  refine ⟨hXnone, ?_, ?_⟩
  · intro p hp
    unfold PySCFProjector.getV_split
    rw [dlookup_dictErase_ne _ _ _ (hs p hp)]
    exact getVLoop_mem_exists part 0 d p hp
  · intro heq
    rw [heq, hg] at hXnone
    exact Option.noConfusion hXnone

/-- Witness for C9 on a concrete one-species partition. -/
theorem getV_split_mutates_witness :
    dlookup [("X", PyArr.arr2 [[(5 : Int)]])] "X" =
      some (PyArr.arr2 [[(5 : Int)]]) ∧
    dlookup (PySCFProjector.getV_split [("A", 1)]
      [("X", PyArr.arr2 [[(5 : Int)]])]) "X" = none ∧
    (∀ p ∈ [("A", (1 : Nat))], ∃ a,
      dlookup (PySCFProjector.getV_split [("A", 1)]
        [("X", PyArr.arr2 [[(5 : Int)]])]) p.1 = some a) ∧
    PySCFProjector.getV_split [("A", 1)] [("X", PyArr.arr2 [[(5 : Int)]])] ≠
      [("X", PyArr.arr2 [[(5 : Int)]])] := by
  have h := getV_split_mutates [("A", 1)] [("X", PyArr.arr2 [[(5 : Int)]])]
    (PyArr.arr2 [[5]]) (by decide) (by decide)
  exact ⟨by decide, h.1, h.2.1, h.2.2⟩

end NeuralXC

namespace NeuralXC

/-! ### C2: species-agnostic concatenation and splitting -/

/-- C2 (counterexample): with two species of one atom each and padded
width 2, feeding the axis-0 concatenated representation itself to the
`get_V` split does not reproduce the per-species arrays: the split slices
along the second axis, so species `A` receives `[[1], [3]]` instead of its
original `[[1, 2]]`. -/
theorem getV_split_counterexample :
    dlookup (PySCFProjector.getV_split
        (PySCFProjector.specPartition
          [("A", [[(1 : ℝ), 2]]), ("B", [[3, 4]])])
        [("X", PyArr.arr2 (PySCFProjector.concatAgn
          [("A", [[(1 : ℝ), 2]]), ("B", [[3, 4]])]))]) "A" ≠
      some (PyArr.arr2 [[(1 : ℝ), 2]]) := by
  have he : dlookup (PySCFProjector.getV_split
      (PySCFProjector.specPartition
        [("A", [[(1 : ℝ), 2]]), ("B", [[3, 4]])])
      [("X", PyArr.arr2 (PySCFProjector.concatAgn
        [("A", [[(1 : ℝ), 2]]), ("B", [[3, 4]])]))]) "A" =
      some (PyArr.arr2 [[(1 : ℝ)], [3]]) := rfl
  rw [he]
  intro hcontra
  have h2 : ([[(1 : ℝ)], [3]] : List (List ℝ)) = [[(1 : ℝ), 2]] := by
    have := Option.some.inj hcontra
    injection this
  have h3 : ([(1 : ℝ)] : List ℝ) = [(1 : ℝ), 2] := (List.cons.inj h2).1
  have h4 : ([] : List ℝ) = [2] := (List.cons.inj h3).2
  exact List.noConfusion h4

lemma getVLoop_lookup_notmem {α : Type} (part : List (Species × Nat)) :
    ∀ (i : Nat) (d : List (Species × PyArr α)) (s : Species),
      s ∉ part.map Prod.fst →
      dlookup (PySCFProjector.getVLoop part i d) s = dlookup d s := by
  induction part with
  | nil => intro i d s _; rfl
  | cons hd rest ih =>
      intro i d s hs
      obtain ⟨s', n⟩ := hd
      simp only [List.map_cons, List.mem_cons, not_or] at hs
      simp only [PySCFProjector.getVLoop]
      rw [ih _ _ _ hs.2, dlookup_dictSet_ne _ _ _ _ hs.1]

lemma getVLoop_get {α : Type} (g : PyArr α) :
    ∀ (part : List (Species × Nat)) (i : Nat)
      (d : List (Species × PyArr α)),
      (part.map Prod.fst).Nodup → (∀ p ∈ part, p.1 ≠ "X") →
      dlookup d "X" = some g →
      ∀ (t : Nat) (ht : t < part.length),
        dlookup (PySCFProjector.getVLoop part i d) (part.get ⟨t, ht⟩).1 =
          some (PySCFProjector.sliceAx1 g
            (i + ((part.take t).map Prod.snd).sum) (part.get ⟨t, ht⟩).2) := by
  intro part
  induction part with
  | nil => intro i d _ _ _ t ht; simp at ht
  | cons hd rest ih =>
      intro i d hnd hX hg t ht
      obtain ⟨s, n⟩ := hd
      simp only [List.map_cons, List.nodup_cons] at hnd
      cases t with
      | zero =>
          simp only [PySCFProjector.getVLoop, List.get, List.take_zero,
            List.map_nil, List.sum_nil, Nat.add_zero]
          rw [getVLoop_lookup_notmem rest _ _ _ hnd.1, hg]
          exact dlookup_dictSet_self _ _ _
      | succ t =>
          have hrest : t < rest.length := by
            simpa using ht
          simp only [PySCFProjector.getVLoop]
          rw [hg]
          have hXd : dlookup (dictSet d s
              (PySCFProjector.sliceAx1 ((some g).getD (PyArr.arr2 []))
                i n)) "X" = some g := by
            rw [dlookup_dictSet_ne _ _ _ _
              (Ne.symm (hX (s, n) (List.mem_cons_self _ _))), hg]
          have hthis := ih (i + n) _ hnd.2
            (fun p hp => hX p (List.mem_cons_of_mem _ hp)) hXd t hrest
          simp only [List.get_cons_succ, List.take_succ_cons, List.map_cons,
            List.sum_cons, ← Nat.add_assoc]
          exact hthis

lemma flatten_drop_take {α : Type} :
    ∀ (Ms : List (List α)) (t : Nat) (ht : t < Ms.length),
      ((Ms.flatten.drop (((Ms.take t).map List.length).sum)).take
        (Ms.get ⟨t, ht⟩).length) = Ms.get ⟨t, ht⟩ := by
  intro Ms
  induction Ms with
  | nil => intro t ht; simp at ht
  | cons M rest ih =>
      intro t ht
      cases t with
      | zero => simp [List.take_left]
      | succ t =>
          have hrest : t < rest.length := by simpa using ht
          simp only [List.flatten_cons, List.take_succ_cons, List.map_cons,
            List.sum_cons, List.get_cons_succ]
          rw [← List.drop_drop, List.drop_left]
          exact ih t hrest

/-- C2 (amended): `get_basis_rep` in agnostic mode concatenates the
per-species padded arrays along the atom axis and records the per-species
atom counts; `get_V` splits the gradient along its *second* axis at those
boundaries, so the round trip holds exactly when the gradient carries a
leading sample axis whose element 0 is the concatenated array: each
species then receives its original padded array under that leading axis
(and `unpad_basis` reads exactly that slice, cf. C10). -/
theorem getV_split_partition {α : Type}
    (coeff : List (Species × List (List α)))
    (hk : (coeff.map Prod.fst).Nodup) (hX : "X" ∉ coeff.map Prod.fst)
    (t : Nat) (ht : t < coeff.length) :
    dlookup (PySCFProjector.getV_split (PySCFProjector.specPartition coeff)
        [("X", PyArr.arr3 [PySCFProjector.concatAgn coeff])])
      (coeff.get ⟨t, ht⟩).1 =
    some (PyArr.arr3 [(coeff.get ⟨t, ht⟩).2]) := by
  unfold PySCFProjector.getV_split
  have hmem : coeff.get ⟨t, ht⟩ ∈ coeff := List.get_mem _ _ _
  have hst : (coeff.get ⟨t, ht⟩).1 ≠ "X" := by
    intro he
    exact hX (he ▸ List.mem_map_of_mem Prod.fst hmem)
  rw [dlookup_dictErase_ne _ _ _ hst]
  have hlen : t < (PySCFProjector.specPartition coeff).length := by
    simpa [PySCFProjector.specPartition] using ht
  have hnd : ((PySCFProjector.specPartition coeff).map Prod.fst).Nodup := by
    have : (PySCFProjector.specPartition coeff).map Prod.fst =
        coeff.map Prod.fst := by
      simp [PySCFProjector.specPartition]
    rw [this]
    exact hk
  have hXs : ∀ p ∈ PySCFProjector.specPartition coeff, p.1 ≠ "X" := by
    intro p hp he
    unfold PySCFProjector.specPartition at hp
    rcases List.mem_map.mp hp with ⟨q, hq, hqe⟩
    apply hX
    rw [← hqe] at he
    exact he ▸ List.mem_map_of_mem Prod.fst hq
  have hg0 : dlookup
      ([("X", PyArr.arr3 [PySCFProjector.concatAgn coeff])] :
        List (Species × PyArr α)) "X" =
      some (PyArr.arr3 [PySCFProjector.concatAgn coeff]) := rfl
  have hmain := getVLoop_get (PyArr.arr3 [PySCFProjector.concatAgn coeff])
    (PySCFProjector.specPartition coeff) 0 _ hnd hXs hg0 t hlen
  have hget1 : ((PySCFProjector.specPartition coeff).get ⟨t, hlen⟩).1 =
      (coeff.get ⟨t, ht⟩).1 := by
    unfold PySCFProjector.specPartition
    rw [List.get_map]
  have hget2 : ((PySCFProjector.specPartition coeff).get ⟨t, hlen⟩).2 =
      (coeff.get ⟨t, ht⟩).2.length := by
    unfold PySCFProjector.specPartition
    rw [List.get_map]
  rw [hget1, hget2] at hmain
  rw [hmain]
  congr 1
  have hsum : (((PySCFProjector.specPartition coeff).take t).map
      Prod.snd).sum =
      (((coeff.map (fun p => p.2)).take t).map List.length).sum := by
    unfold PySCFProjector.specPartition
    rw [← List.map_take, ← List.map_take, List.map_map, List.map_map]
    rfl
  simp only [PySCFProjector.sliceAx1, List.map_cons, List.map_nil,
    Nat.zero_add, hsum]
  congr 1
  have hMs : t < (coeff.map (fun p => p.2)).length := by simpa using ht
  have := flatten_drop_take (coeff.map (fun p => p.2)) t hMs
  rw [show ((coeff.map (fun p => p.2)).get ⟨t, hMs⟩) =
      (coeff.get ⟨t, ht⟩).2 from by rw [List.get_map]] at this
  unfold PySCFProjector.concatAgn
  rw [this]

/-- Witness for the amended C2 theorem on a concrete two-species input. -/
theorem getV_split_partition_witness :
    (([("A", [[(1 : Int), 2]]), ("B", [[3, 4]])].map Prod.fst).Nodup) ∧
    ("X" ∉ [("A", [[(1 : Int), 2]]), ("B", [[3, 4]])].map Prod.fst) ∧
    dlookup (PySCFProjector.getV_split
        (PySCFProjector.specPartition
          [("A", [[(1 : Int), 2]]), ("B", [[3, 4]])])
        [("X", PyArr.arr3 [PySCFProjector.concatAgn
          [("A", [[(1 : Int), 2]]), ("B", [[3, 4]])]])]) "B" =
      some (PyArr.arr3 [[[(3 : Int), 4]]]) :=
  ⟨by decide, by decide,
    getV_split_partition [("A", [[(1 : Int), 2]]), ("B", [[3, 4]])]
      (by decide) (by decide) 1 (by decide)⟩

end NeuralXC

namespace NeuralXC
namespace GaussianProjector

/-! ### C5 and C7: get_basis_rep control flow -/

lemma project_angs_irrelevant (env : GridEnv) (rho : List ℝ)
    (pos : ℝ × ℝ × ℝ) (b : List Shell) (bstr : String)
    (a1 a2 : Option Unit) :
    project env rho pos b bstr a1 = project env rho pos b bstr a2 := rfl

lemma gbrGo_cache_indep (env : GridEnv) (basisD : List (Species × List Shell))
    (stringsD : List (Species × String)) (rho : List ℝ)
    (todo : List ((ℝ × ℝ × ℝ) × Species)) :
    ∀ (acc : List (Species × List (List (List ℝ)))) (um1 um2 : Bool)
      (c1 c2 : AngCache),
      Except.map Prod.fst (gbrGo env um1 basisD stringsD rho todo acc c1) =
      Except.map Prod.fst (gbrGo env um2 basisD stringsD rho todo acc c2) := by
  induction todo with
  | nil => intro acc um1 um2 c1 c2; rfl
  | cons hd rest ih =>
      intro acc um1 um2 c1 c2
      obtain ⟨pos, spec⟩ := hd
      cases hb : dlookup basisD spec with
      | none => simp only [gbrGo, hb]
      | some basis =>
          cases hs : dlookup stringsD spec with
          | none => simp only [gbrGo, hb, hs]
          | some bstr =>
              simp only [gbrGo, hb, hs]
              rw [project_angs_irrelevant env rho pos basis bstr
                (cacheGet c1 (spec, pos)) (cacheGet c2 (spec, pos))]
              apply ih

/-- C7: the output of `get_basis_rep` (both its value and its error
status) is independent of the angular-grid cache contents and of the
`config.UseMemory` flag; in particular calling it twice with identical
density, positions and species — the second call starting from whatever
cache state the first call left behind — yields identical output. -/
theorem get_basis_rep_deterministic (env : GridEnv)
    (basisD : List (Species × List Shell))
    (stringsD : List (Species × String)) (rho : List ℝ)
    (positions : List (ℝ × ℝ × ℝ)) (species : List Species)
    (um1 um2 : Bool) (c1 c2 : AngCache) :
    Except.map Prod.fst
      (get_basis_rep env um1 basisD stringsD c1 rho positions species) =
    Except.map Prod.fst
      (get_basis_rep env um2 basisD stringsD c2 rho positions species) := by
  unfold get_basis_rep
  have h := gbrGo_cache_indep env basisD stringsD rho
    (positions.zip species) [] um1 um2 c1 c2
  cases h1 : gbrGo env um1 basisD stringsD rho (positions.zip species) [] c1
    with
  | error e =>
      rw [h1] at h
      cases h2 : gbrGo env um2 basisD stringsD rho (positions.zip species) []
        c2 with
      | error e2 =>
          rw [h2] at h
          simp only [Except.map] at h
          cases h
          rfl
      | ok r2 =>
          rw [h2] at h
          simp [Except.map] at h
  | ok r1 =>
      cases h2 : gbrGo env um2 basisD stringsD rho (positions.zip species) []
        c2 with
      | error e2 =>
          rw [h1, h2] at h
          simp [Except.map] at h
      | ok r2 =>
          rw [h1, h2] at h
          simp only [Except.map, Except.ok.injEq] at h
          simp only [Except.map, Except.ok.injEq]
          rw [h]

/-- C5 (counterexample): called with one position but two species (all of
which have a configured basis) on an empty grid window, `get_basis_rep`
succeeds instead of raising: the `zip` loop silently drops the extra
species. -/
theorem get_basis_rep_no_length_check :
    positionsEx.length ≠ speciesEx.length ∧
    (get_basis_rep envEx true basisEx stringsEx [] rhoEx positionsEx
      speciesEx).isOk = true := by
  constructor
  · decide
  · rfl

/-- C5 (amended): `get_basis_rep` performs no positions/species length
check; it iterates over `zip(positions, species)`, so it behaves exactly
as if both inputs were truncated to their common length, and the excess
entries of the longer input are silently ignored. -/
theorem get_basis_rep_truncates (env : GridEnv) (um : Bool)
    (basisD : List (Species × List Shell))
    (stringsD : List (Species × String)) (cache : AngCache) (rho : List ℝ)
    (positions : List (ℝ × ℝ × ℝ)) (species : List Species) :
    get_basis_rep env um basisD stringsD cache rho positions species =
    get_basis_rep env um basisD stringsD cache rho
      (positions.take (min positions.length species.length))
      (species.take (min positions.length species.length)) := by
  unfold get_basis_rep
  have hz : positions.zip species =
      (positions.take (min positions.length species.length)).zip
        (species.take (min positions.length species.length)) := by
    rw [List.zip_eq_zipWith, List.zip_eq_zipWith, ← List.take_zipWith]
    rw [show (List.zipWith Prod.mk positions species).take
        (min positions.length species.length) =
        (List.zipWith Prod.mk positions species).take
          (List.zipWith Prod.mk positions species).length from by
      rw [List.length_zipWith]]
    rw [List.take_length]
  rw [hz]

end GaussianProjector
end NeuralXC

namespace NeuralXC

/-! ### Mask select/scatter lemmas -/

lemma maskAssign_length {α : Type} [Zero α] :
    ∀ (m : List Bool) (vs : List α), (maskAssign m vs).length = m.length := by
  intro m
  induction m with
  | nil => intro vs; rfl
  | cons b ms ih =>
      intro vs
      cases b <;> cases vs <;> simp [maskAssign, ih]

lemma gather_maskAssign {α : Type} [Zero α] :
    ∀ (m : List Bool) (vs : List α), countTrues m = vs.length →
      gatherMask m (maskAssign m vs) = vs := by
  intro m
  induction m with
  | nil =>
      intro vs h
      cases vs with
      | nil => rfl
      | cons v vs => simp [countTrues] at h
  | cons b ms ih =>
      intro vs h
      cases b with
      | true =>
          cases vs with
          | nil => simp [countTrues, List.countP_cons] at h
          | cons v vs =>
              have h2 : countTrues ms = vs.length := by
                simpa [countTrues, List.countP_cons] using h
              simp [maskAssign, gatherMask, ih vs h2]
      | false =>
          have h2 : countTrues ms = vs.length := by
            simpa [countTrues, List.countP_cons] using h
          simp [maskAssign, gatherMask, ih vs h2]

lemma maskAssign_getD_false {α : Type} [Zero α] :
    ∀ (m : List Bool) (vs : List α) (p : Nat), m.getD p false = false →
      (maskAssign m vs).getD p 0 = 0 := by
  intro m
  induction m with
  | nil => intro vs p _; cases vs <;> simp [maskAssign]
  | cons b ms ih =>
      intro vs p hp
      cases b with
      | true =>
          cases p with
          | zero => simp at hp
          | succ p =>
              cases vs with
              | nil => simpa [maskAssign] using ih [] p (by simpa using hp)
              | cons v vs =>
                  simpa [maskAssign] using ih vs p (by simpa using hp)
      | false =>
          cases p with
          | zero => simp [maskAssign]
          | succ p =>
              simpa [maskAssign] using ih vs p (by simpa using hp)

lemma maskAssign_gather_getD_true {α : Type} [Zero α] :
    ∀ (m : List Bool) (row : List α) (p : Nat), m.length = row.length →
      m.getD p false = true →
      (maskAssign m (gatherMask m row)).getD p 0 = row.getD p 0 := by
  intro m
  induction m with
  | nil => intro row p _ hp; simp at hp
  | cons b ms ih =>
      intro row p hlen hp
      cases row with
      | nil => simp at hlen
      | cons r rs =>
          have hlen2 : ms.length = rs.length := by simpa using hlen
          cases b with
          | true =>
              cases p with
              | zero => simp [gatherMask, maskAssign]
              | succ p =>
                  simpa [gatherMask, maskAssign] using
                    ih rs p hlen2 (by simpa using hp)
          | false =>
              cases p with
              | zero => simp at hp
              | succ p =>
                  simpa [gatherMask, maskAssign] using
                    ih rs p hlen2 (by simpa using hp)

lemma gather_length {α : Type} :
    ∀ (m : List Bool) (row : List α), m.length = row.length →
      (gatherMask m row).length = countTrues m := by
  intro m
  induction m with
  | nil => intro row _; simp [gatherMask, countTrues]
  | cons b ms ih =>
      intro row hlen
      cases row with
      | nil => simp at hlen
      | cons r rs =>
          have hlen2 : ms.length = rs.length := by simpa using hlen
          cases b with
          | true => simp [gatherMask, countTrues, List.countP_cons, ih rs hlen2]
          | false =>
              have hh := ih rs hlen2
              simp only [countTrues, List.countP_cons] at hh ⊢
              simpa [gatherMask] using hh

/-! ### Sequential scatter-write lemmas -/

lemma setfold_length {α : Type} :
    ∀ (pairs : List (Nat × α)) (out : List α),
      (pairs.foldl (fun o p => o.set p.1 p.2) out).length = out.length := by
  intro pairs
  induction pairs with
  | nil => intro out; rfl
  | cons pr rest ih => intro out; simp [ih]

lemma setfold_untouched {α : Type} [Zero α] :
    ∀ (pairs : List (Nat × α)) (out : List α) (j : Nat),
      (∀ pr ∈ pairs, pr.1 ≠ j) →
      (pairs.foldl (fun o p => o.set p.1 p.2) out).getD j 0 =
        out.getD j 0 := by
  intro pairs
  induction pairs with
  | nil => intro out j _; rfl
  | cons pr rest ih =>
      intro out j hne
      simp only [List.foldl_cons]
      rw [ih _ _ (fun q hq => hne q (List.mem_cons_of_mem _ hq))]
      simp only [List.getD_eq_getElem?_getD]
      rw [List.getElem?_set_ne (hne pr (List.mem_cons_self _ _))]

lemma setfold_good {α : Type} [Zero α] (f : Nat → α) :
    ∀ (pairs : List (Nat × α)) (out : List α) (j : Nat),
      (∀ pr ∈ pairs, pr.2 = f pr.1) → out.getD j 0 = f j →
      (pairs.foldl (fun o p => o.set p.1 p.2) out).getD j 0 = f j := by
  intro pairs
  induction pairs with
  | nil => intro out j _ h; exact h
  | cons pr rest ih =>
      intro out j hgood hout
      simp only [List.foldl_cons]
      apply ih _ _ (fun q hq => hgood q (List.mem_cons_of_mem _ hq))
      by_cases hj : pr.1 = j
      · subst hj
        simp only [List.getD_eq_getElem?_getD]
        by_cases hlt : pr.1 < out.length
        · rw [List.getElem?_set_self hlt]
          simpa using hgood pr (List.mem_cons_self _ _)
        · rw [List.set_eq_of_length_le (Nat.le_of_not_lt hlt)]
          simpa [List.getD_eq_getElem?_getD] using hout
      · simp only [List.getD_eq_getElem?_getD]
        rw [List.getElem?_set_ne hj]
        simpa [List.getD_eq_getElem?_getD] using hout

lemma setfold_establish {α : Type} [Zero α] (f : Nat → α) :
    ∀ (pairs : List (Nat × α)) (out : List α) (j : Nat),
      (∀ pr ∈ pairs, pr.2 = f pr.1) → j ∈ pairs.map Prod.fst →
      j < out.length →
      (pairs.foldl (fun o p => o.set p.1 p.2) out).getD j 0 = f j := by
  intro pairs
  induction pairs with
  | nil => intro out j _ hmem _; simp at hmem
  | cons pr rest ih =>
      intro out j hgood hmem hlt
      simp only [List.foldl_cons]
      by_cases hrest : j ∈ rest.map Prod.fst
      · exact ih _ _ (fun q hq => hgood q (List.mem_cons_of_mem _ hq)) hrest
          (by simpa using hlt)
      · have hj : pr.1 = j := by
          rcases List.mem_map.mp hmem with ⟨q, hq, hqe⟩
          rcases List.mem_cons.mp hq with h1 | h1
          · rw [h1] at hqe
            exact hqe
          · exact absurd (hqe ▸ List.mem_map_of_mem Prod.fst h1) hrest
        rw [setfold_untouched _ _ _ (fun q hq hqj => hrest (by
          rw [← hqj]
          exact List.mem_map_of_mem Prod.fst hq))]
        subst hj
        simp only [List.getD_eq_getElem?_getD]
        rw [List.getElem?_set_self hlt]
        simpa using hgood pr (List.mem_cons_self _ _)

lemma setfold_nodup {α : Type} [Zero α] :
    ∀ (pairs : List (Nat × α)) (out : List α) (r : Nat) (gv : α),
      (pairs.map Prod.fst).Nodup → (r, gv) ∈ pairs → r < out.length →
      (pairs.foldl (fun o p => o.set p.1 p.2) out).getD r 0 = gv := by
  intro pairs
  induction pairs with
  | nil => intro out r gv _ hmem _; simp at hmem
  | cons pr rest ih =>
      intro out r gv hnd hmem hlt
      simp only [List.map_cons, List.nodup_cons] at hnd
      simp only [List.foldl_cons]
      rcases List.mem_cons.mp hmem with h1 | h1
      · have hr : pr.1 = r := by rw [← h1]
        have hg : pr.2 = gv := by rw [← h1]
        rw [setfold_untouched _ _ _ (fun q hq hqr => hnd.1 (by
          rw [hr, ← hqr]
          exact List.mem_map_of_mem Prod.fst hq))]
        rw [hr, hg]
        simp only [List.getD_eq_getElem?_getD]
        rw [List.getElem?_set_self hlt]
        rfl
      · exact ih _ _ _ hnd.2 h1 (by simpa using hlt)

/-- Extracting one element of a global slice: for `st ≤ r < en ≤ len v`,
`v[st:en][r-st] = v[r]`. -/
lemma slice_getD {α : Type} [Zero α] (v : List α) (st en r : Nat)
    (h1 : st ≤ r) (h2 : r < en) :
    ((v.drop st).take (en - st)).getD (r - st) 0 = v.getD r 0 := by
  simp only [List.getD_eq_getElem?_getD]
  rw [List.getElem?_take_of_lt (by omega), List.getElem?_drop]
  congr 2
  omega

end NeuralXC

namespace NeuralXC

/-! ### Bookkeeping for the per-atom loops -/

lemma padGo_append {α : Type} [Zero α] (bp : BasisPadder) (v : List α) :
    ∀ (l1 l2 : List (Nat × Species)) (cnt : Species → Nat)
      (out : List (Species × List (List α))),
      BasisPadder.padGo bp v (l1 ++ l2) cnt out =
      BasisPadder.padGo bp v l2
        (l1.foldl (fun c p => BasisPadder.bump c p.2) cnt)
        (BasisPadder.padGo bp v l1 cnt out) := by
  intro l1
  induction l1 with
  | nil => intro l2 cnt out; rfl
  | cons hd rest ih =>
      intro l2 cnt out
      obtain ⟨aidx, s⟩ := hd
      simp only [List.cons_append, BasisPadder.padGo, List.foldl_cons]
      exact ih l2 _ _

lemma foldl_bump_count :
    ∀ (l : List (Nat × Species)) (cnt : Species → Nat) (s : Species),
      (l.foldl (fun c p => BasisPadder.bump c p.2) cnt) s =
        cnt s + (l.map Prod.snd).count s := by
  intro l
  induction l with
  | nil => intro cnt s; simp
  | cons p rest ih =>
      intro cnt s
      simp only [List.foldl_cons, List.map_cons]
      rw [ih]
      unfold BasisPadder.bump
      by_cases hs : s = p.2
      · subst hs
        rw [List.count_cons_self]
        simp
        omega
      · rw [List.count_cons_of_ne hs]
        simp [hs]

lemma enum_take_snd (l : List Species) (k : Nat) :
    (l.enum.take k).map Prod.snd = l.take k := by
  rw [List.map_take, List.enum_map_snd]

lemma enum_split (l : List Species) (k : Nat) (hk : k < l.length) :
    l.enum = l.enum.take k ++ (k, l.getD k "") :: l.enum.drop (k + 1) := by
  have hk2 : k < l.enum.length := by
    rw [List.enum_length]
    exact hk
  conv_lhs => rw [← List.take_append_drop k l.enum]
  congr 1
  rw [List.drop_eq_getElem_cons hk2]
  congr 1
  rw [List.getElem_enum]
  have hgd : l.getD k "" = l.get ⟨k, hk⟩ := List.getD_eq_get _ _ hk
  rw [hgd]
  rfl

lemma eAt_le_nao (bp : BasisPadder) (k : Nat) :
    eAt bp k ≤ naoOf bp.mol :=
  List.countP_le_length _

lemma slice_mono (bp : BasisPadder) (k k' : Nat) (h : k < k') :
    eAt bp k ≤ sAt bp k' := by
  unfold eAt sAt sliceEnd sliceStart
  apply List.countP_mono_left
  intro lab _ hle
  simp only [decide_eq_true_eq] at hle ⊢
  omega

lemma occAt_lt_count (bp : BasisPadder) (k : Nat)
    (hk : k < bp.mol.atoms.length) :
    occAt bp k < bp.mol.atoms.count (atomSym bp k) := by
  unfold occAt
  conv_rhs => rw [← List.take_append_drop k bp.mol.atoms]
  rw [List.count_append]
  have hdrop : bp.mol.atoms.drop k =
      atomSym bp k :: bp.mol.atoms.drop (k + 1) := by
    rw [List.drop_eq_getElem_cons hk]
    congr 1
    unfold atomSym
    exact (List.getD_eq_get _ _ hk).symm
  rw [hdrop, List.count_cons_self]
  omega

lemma padGo_preserve {α : Type} [Zero α] (bp : BasisPadder) (v : List α) :
    ∀ (todo : List (Nat × Species)) (cnt : Species → Nat)
      (out : List (Species × List (List α))) (s : Species) (c : Nat),
      c < cnt s →
      ((dlookup (BasisPadder.padGo bp v todo cnt out) s).getD []).getD c [] =
      ((dlookup out s).getD []).getD c [] := by
  intro todo
  induction todo with
  | nil => intro cnt out s c _; rfl
  | cons hd rest ih =>
      intro cnt out s c hc
      obtain ⟨aidx, s'⟩ := hd
      simp only [BasisPadder.padGo]
      rw [ih _ _ _ _ (by
        unfold BasisPadder.bump
        by_cases h : s = s'
        · subst h; simp; omega
        · simp [h]; exact hc)]
      by_cases hss : s = s'
      · subst hss
        rw [dlookup_dictUpdate_self]
        cases hM : dlookup out s with
        | none => rfl
        | some M =>
            simp only [Option.map_some', Option.getD_some]
            simp only [List.getD_eq_getElem?_getD]
            rw [List.getElem?_set_ne (by omega : cnt s ≠ c)]
      · rw [dlookup_dictUpdate_ne _ _ _ _ hss]

lemma padGo_presence {α : Type} [Zero α] (bp : BasisPadder) (v : List α) :
    ∀ (todo : List (Nat × Species)) (cnt : Species → Nat)
      (out : List (Species × List (List α))) (s : Species) (n : Nat),
      (∃ M, dlookup out s = some M ∧ M.length = n) →
      ∃ M, dlookup (BasisPadder.padGo bp v todo cnt out) s = some M ∧
        M.length = n := by
  intro todo
  induction todo with
  | nil => intro cnt out s n h; exact h
  | cons hd rest ih =>
      intro cnt out s n h
      obtain ⟨aidx, s'⟩ := hd
      obtain ⟨M, hM, hMlen⟩ := h
      simp only [BasisPadder.padGo]
      apply ih
      by_cases hss : s = s'
      · subst hss
        rw [dlookup_dictUpdate_self, hM]
        exact ⟨_, rfl, by simpa using hMlen⟩
      · rw [dlookup_dictUpdate_ne _ _ _ _ hss]
        exact ⟨M, hM, hMlen⟩

end NeuralXC

namespace NeuralXC

/-- The padded row produced by `pad_basis` for atom `k`: the atom's mask
row scatter-filled with the coefficient slice gathered at its
`indexing_r` positions. -/
lemma pad_basis_at {α : Type} [Zero α] (bp : BasisPadder) (v : List α)
    (k : Nat) (hk : k < bp.mol.atoms.length)
    (hsym : atomSym bp k ∈ bp.syms)
    (hcnt : dlookupD bp.sym_cnt (atomSym bp k) 0 =
      bp.mol.atoms.count (atomSym bp k)) :
    ((dlookup (BasisPadder.pad_basis bp v) (atomSym bp k)).getD []).getD
      (occAt bp k) [] =
    maskAssign (maskAt bp k) ((rlAt bp k).map (fun r =>
      ((v.drop (sAt bp k)).take (eAt bp k - sAt bp k)).getD
        (r - sAt bp k) 0)) := by
  have ha : atomSym bp k = bp.mol.atoms.getD k "" := rfl
  have hc1 : (List.foldl (fun c p => BasisPadder.bump c p.2) (fun _ => 0)
      (bp.mol.atoms.enum.take k)) (bp.mol.atoms.getD k "") = occAt bp k := by
    rw [foldl_bump_count, enum_take_snd]
    unfold occAt atomSym
    simp
  have hinit : dlookup (bp.syms.map (fun s =>
      (s, List.replicate (dlookupD bp.sym_cnt s 0)
        (List.replicate (BasisPadder.widthOf bp s) (0 : α)))))
      (bp.mol.atoms.getD k "") =
      some (List.replicate (dlookupD bp.sym_cnt (bp.mol.atoms.getD k "") 0)
        (List.replicate (BasisPadder.widthOf bp (bp.mol.atoms.getD k ""))
          (0 : α))) :=
    dlookup_map_of_mem _ _ _ hsym
  obtain ⟨M, hM, hMlen⟩ := padGo_presence bp v (bp.mol.atoms.enum.take k)
    (fun _ => 0) _ (bp.mol.atoms.getD k "")
    (bp.mol.atoms.count (atomSym bp k))
    ⟨_, hinit, by rw [List.length_replicate]; exact hcnt⟩
  rw [ha]
  unfold BasisPadder.pad_basis
  conv_lhs => rw [enum_split bp.mol.atoms k hk]
  rw [padGo_append]
  simp only [BasisPadder.padGo]
  rw [hc1]
  have hbump : ∀ (cnt : Species → Nat) (s : Species),
      BasisPadder.bump cnt s s = cnt s + 1 := by
    intro cnt s
    unfold BasisPadder.bump
    rw [if_pos rfl]
  have hlt : occAt bp k < BasisPadder.bump
      (List.foldl (fun c p => BasisPadder.bump c p.2) (fun _ => 0)
        (bp.mol.atoms.enum.take k)) (bp.mol.atoms.getD k "")
      (bp.mol.atoms.getD k "") := by
    rw [hbump, hc1]
    omega
  rw [padGo_preserve bp v _ _ _ _ _ hlt]
  rw [dlookup_dictUpdate_self, hM]
  simp only [Option.map_some', Option.getD_some]
  simp only [List.getD_eq_getElem?_getD]
  rw [List.getElem?_set_self (by
    rw [hMlen]
    exact occAt_lt_count bp k hk)]
  simp only [Option.getD_some]
  have hkey : bp.mol.atoms[k]?.getD "" = atomSym bp k :=
    (List.getD_eq_getElem?_getD _ _ _).symm
  rw [hkey]
  simp only [maskAt, rlAt, sAt, eAt]

end NeuralXC

namespace NeuralXC

/-! ### C1: the padding round trip -/

lemma writeRow_length {α : Type} (st : Nat) :
    ∀ (pairs : List (Nat × α)) (out : List α),
      (BasisPadder.writeRow st pairs out).length = out.length := by
  intro pairs
  unfold BasisPadder.writeRow
  induction pairs with
  | nil => intro out; rfl
  | cons pr rest ih =>
      intro out
      simp only [List.foldl_cons]
      rw [ih]
      simp

lemma unpadGo_length {α : Type} [Zero α] (bp : BasisPadder)
    (coeff : List (Species × PyArr α)) :
    ∀ (todo : List (Nat × Species)) (cnt : Species → Nat) (out : List α),
      (BasisPadder.unpadGo bp coeff todo cnt out).length = out.length := by
  intro todo
  induction todo with
  | nil => intro cnt out; rfl
  | cons hd rest ih =>
      intro cnt out
      obtain ⟨aidx, s⟩ := hd
      simp only [BasisPadder.unpadGo]
      rw [ih, writeRow_length]

lemma wrap_asMat {α : Type} (d : List (Species × List (List α)))
    (s : Species) :
    asMat ((dlookup (wrapArr2 d) s).getD (PyArr.arr2 [])) =
      (dlookup d s).getD [] := by
  rw [dlookup_wrapArr2]
  cases dlookup d s <;> rfl

lemma enum_drop_cons (l : List Species) (k : Nat) (hk : k < l.length) :
    l.enum.drop k = (k, l.getD k "") :: l.enum.drop (k + 1) := by
  have hk2 : k < l.enum.length := by
    rw [List.enum_length]
    exact hk
  rw [List.drop_eq_getElem_cons hk2]
  congr 1
  rw [List.getElem_enum]
  have hgd : l.getD k "" = l.get ⟨k, hk⟩ := List.getD_eq_get _ _ hk
  rw [hgd]
  rfl

lemma zip_self_map {α β : Type} (g : β → α) :
    ∀ (l : List β), l.zip (l.map g) = l.map (fun x => (x, g x)) := by
  intro l
  induction l with
  | nil => rfl
  | cons x xs ih => simp [List.zip_cons_cons, ih]

lemma writeRow_eq_plain {α : Type} (st : Nat) :
    ∀ (pairs : List (Nat × α)) (out : List α),
      (∀ pr ∈ pairs, st ≤ pr.1) →
      BasisPadder.writeRow st pairs out =
        pairs.foldl (fun o p => o.set p.1 p.2) out := by
  intro pairs
  unfold BasisPadder.writeRow
  induction pairs with
  | nil => intro out _; rfl
  | cons pr rest ih =>
      intro out hle
      simp only [List.foldl_cons]
      rw [show st + (pr.1 - st) = pr.1 from by
        have := hle pr (List.mem_cons_self _ _)
        omega]
      exact ih _ (fun q hq => hle q (List.mem_cons_of_mem _ hq))

lemma count_take_succ (l : List Species) (k : Nat) (hk : k < l.length) :
    BasisPadder.bump (fun s => (l.take k).count s) (l.getD k "") =
      fun s => (l.take (k + 1)).count s := by
  funext s
  unfold BasisPadder.bump
  rw [← List.take_concat_get l k hk, List.concat_eq_append, List.count_append]
  have hgd : l.getD k "" = l.get ⟨k, hk⟩ := List.getD_eq_get _ _ hk
  have hel : (l.get ⟨k, hk⟩ :: []) = [l.getD k ""] := by rw [hgd]
  rw [show ([l[k]] : List Species) = [l.getD k ""] from hel]
  by_cases hs : s = l.getD k ""
  · rw [if_pos hs, hs]
    simp
  · rw [if_neg hs]
    rw [List.count_singleton']
    simp only [beq_iff_eq]
    rw [if_neg (fun he => hs he.symm)]
    simp

end NeuralXC

namespace NeuralXC

lemma unpad_pad_aux {α : Type} [Zero α] (bp : BasisPadder) (v : List α)
    (hsyms : ∀ k, k < bp.mol.atoms.length → atomSym bp k ∈ bp.syms)
    (hcnt : ∀ k, k < bp.mol.atoms.length →
      dlookupD bp.sym_cnt (atomSym bp k) 0 =
        bp.mol.atoms.count (atomSym bp k))
    (hrlen : ∀ k, k < bp.mol.atoms.length →
      (rlAt bp k).length = countTrues (maskAt bp k))
    (hslice : ∀ k, k < bp.mol.atoms.length →
      ∀ r ∈ rlAt bp k, sAt bp k ≤ r ∧ r < eAt bp k) :
    ∀ (n k : Nat), bp.mol.atoms.length ≤ k + n →
    ∀ (out : List α), out.length = naoOf bp.mol →
    (∀ j, j < naoOf bp.mol → out.getD j 0 = v.getD j 0 ∨
      ∃ k2, k ≤ k2 ∧ k2 < bp.mol.atoms.length ∧ j ∈ rlAt bp k2) →
    ∀ j, j < naoOf bp.mol →
    (BasisPadder.unpadGo bp (wrapArr2 (BasisPadder.pad_basis bp v))
      (bp.mol.atoms.enum.drop k)
      (fun s => (bp.mol.atoms.take k).count s) out).getD j 0 =
      v.getD j 0 := by
  intro n
  induction n with
  | zero =>
      intro k hkn out hout_len hout j hj
      rw [List.drop_eq_nil_of_le (by rw [List.enum_length]; omega)]
      rcases hout j hj with h | ⟨k2, hk2, hk2lt, _⟩
      · exact h
      · omega
  | succ n ih =>
      intro k hkn out hout_len hout j hj
      by_cases hklen : bp.mol.atoms.length ≤ k
      · rw [List.drop_eq_nil_of_le (by rw [List.enum_length]; omega)]
        rcases hout j hj with h | ⟨k2, hk2, hk2lt, _⟩
        · exact h
        · omega
      · have hk : k < bp.mol.atoms.length := by omega
        rw [enum_drop_cons bp.mol.atoms k hk]
        simp only [BasisPadder.unpadGo]
        have hocc : (bp.mol.atoms.take k).count (bp.mol.atoms.getD k "") =
            occAt bp k := rfl
        rw [hocc, wrap_asMat]
        have hsymk : bp.mol.atoms.getD k "" = atomSym bp k := rfl
        rw [hsymk]
        have hmk : BasisPadder.maskOfAt bp (atomSym bp k) (occAt bp k) =
            maskAt bp k := rfl
        have hrk : BasisPadder.rlOfAt bp (atomSym bp k) (occAt bp k) =
            rlAt bp k := rfl
        rw [hmk, hrk, pad_basis_at bp v k hk (hsyms k hk) (hcnt k hk)]
        rw [gather_maskAssign _ _
          (by rw [List.length_map]; exact (hrlen k hk).symm)]
        rw [zip_self_map]
        rw [writeRow_eq_plain _ _ _ (by
          intro pr hpr
          rcases List.mem_map.mp hpr with ⟨r, hr, he⟩
          rw [← he]
          exact (hslice k hk r hr).1)]
        have hcnt2 : BasisPadder.bump
            (fun s => (bp.mol.atoms.take k).count s) (atomSym bp k) =
            fun s => (bp.mol.atoms.take (k + 1)).count s :=
          count_take_succ bp.mol.atoms k hk
        rw [hcnt2]
        refine ih (k + 1) (by omega) _ (by rw [setfold_length]; exact hout_len)
          ?_ j hj
        intro j2 hj2
        have hgood : ∀ pr ∈ (rlAt bp k).map (fun r =>
            (r, ((v.drop (sAt bp k)).take (eAt bp k - sAt bp k)).getD
              (r - sAt bp k) 0)),
            pr.2 = (fun j3 => v.getD j3 0) pr.1 := by
          intro pr hpr
          rcases List.mem_map.mp hpr with ⟨r, hr, he⟩
          rw [← he]
          exact slice_getD v _ _ r (hslice k hk r hr).1 (hslice k hk r hr).2
        rcases hout j2 hj2 with hleft | ⟨k2, hk2ge, hk2lt, hjmem⟩
        · left
          exact setfold_good (fun j3 => v.getD j3 0) _ _ _ hgood hleft
        · by_cases he : k2 = k
          · subst he
            left
            apply setfold_establish (fun j3 => v.getD j3 0) _ _ _ hgood
            · have hfst : ((rlAt bp k2).map (fun r =>
                  (r, ((v.drop (sAt bp k2)).take
                    (eAt bp k2 - sAt bp k2)).getD (r - sAt bp k2) 0))).map
                  Prod.fst = rlAt bp k2 := by
                rw [List.map_map]
                exact List.map_id _
              rw [hfst]
              exact hjmem
            · rw [hout_len]
              exact hj2
          · right
            exact ⟨k2, by omega, hk2lt, hjmem⟩

/-- C1: for a BasisPadder whose index map satisfies the construction
invariants (per-atom source indices lie in the atom's AO slice and have
one index per populated mask slot, the recorded species counts match the
geometry, and the source indices cover the full AO label range), padding
then unpadding returns any full-length flat coefficient vector unchanged,
element for element. -/
theorem basis_padding_roundtrip {α : Type} [Zero α] (bp : BasisPadder)
    (v : List α) (hv : v.length = naoOf bp.mol)
    (hsyms : ∀ k, k < bp.mol.atoms.length → atomSym bp k ∈ bp.syms)
    (hcnt : ∀ k, k < bp.mol.atoms.length →
      dlookupD bp.sym_cnt (atomSym bp k) 0 =
        bp.mol.atoms.count (atomSym bp k))
    (hrlen : ∀ k, k < bp.mol.atoms.length →
      (rlAt bp k).length = countTrues (maskAt bp k))
    (hslice : ∀ k, k < bp.mol.atoms.length →
      ∀ r ∈ rlAt bp k, sAt bp k ≤ r ∧ r < eAt bp k)
    (hcov : ∀ j, j < naoOf bp.mol →
      ∃ k ∈ List.range bp.mol.atoms.length, j ∈ rlAt bp k) :
    BasisPadder.unpad_basis bp (wrapArr2 (BasisPadder.pad_basis bp v)) =
      v := by
  unfold BasisPadder.unpad_basis
  have hlen0 : (BasisPadder.unpadGo bp
      (wrapArr2 (BasisPadder.pad_basis bp v)) bp.mol.atoms.enum
      (fun _ => 0) (List.replicate (naoOf bp.mol) 0)).length = v.length := by
    rw [unpadGo_length, List.length_replicate, hv]
  apply List.ext_get hlen0
  intro i h1 h2
  have hi : i < naoOf bp.mol := by
    rw [unpadGo_length, List.length_replicate] at h1
    exact h1
  rw [← List.getD_eq_get _ (0 : α) h1, ← List.getD_eq_get _ (0 : α) h2]
  have haux := unpad_pad_aux bp v hsyms hcnt hrlen hslice
    bp.mol.atoms.length 0 (by omega) (List.replicate (naoOf bp.mol) 0)
    (by rw [List.length_replicate]) (by
      intro j hj
      right
      obtain ⟨k2, hk2r, hmem⟩ := hcov j hj
      exact ⟨k2, by omega, List.mem_range.mp hk2r, hmem⟩) i hi
  simp only [List.drop_zero, List.take_zero, List.count_nil] at haux
  exact haux

end NeuralXC

namespace NeuralXC

/-- Witness for C1: a two-species geometry (an O atom with 1s, 2s, 2p
orbitals and an H atom with 1s) built by `buildPadder`, with a concrete
6-entry coefficient vector. -/
theorem basis_padding_roundtrip_witness :
    ([10, 20, 30, 40, 50, 60] : List Int).length =
      naoOf (buildPadder { atoms := ["O", "H"], labels :=
        [⟨0, "O", 1, 0⟩, ⟨0, "O", 2, 0⟩, ⟨0, "O", 2, 1⟩, ⟨0, "O", 2, 1⟩,
         ⟨0, "O", 2, 1⟩, ⟨1, "H", 1, 0⟩] }).mol ∧
    BasisPadder.unpad_basis
      (buildPadder { atoms := ["O", "H"], labels :=
        [⟨0, "O", 1, 0⟩, ⟨0, "O", 2, 0⟩, ⟨0, "O", 2, 1⟩, ⟨0, "O", 2, 1⟩,
         ⟨0, "O", 2, 1⟩, ⟨1, "H", 1, 0⟩] })
      (wrapArr2 (BasisPadder.pad_basis
        (buildPadder { atoms := ["O", "H"], labels :=
          [⟨0, "O", 1, 0⟩, ⟨0, "O", 2, 0⟩, ⟨0, "O", 2, 1⟩, ⟨0, "O", 2, 1⟩,
           ⟨0, "O", 2, 1⟩, ⟨1, "H", 1, 0⟩] })
        ([10, 20, 30, 40, 50, 60] : List Int))) =
      [10, 20, 30, 40, 50, 60] :=
  ⟨by decide,
    basis_padding_roundtrip
      (buildPadder { atoms := ["O", "H"], labels :=
        [⟨0, "O", 1, 0⟩, ⟨0, "O", 2, 0⟩, ⟨0, "O", 2, 1⟩, ⟨0, "O", 2, 1⟩,
         ⟨0, "O", 2, 1⟩, ⟨1, "H", 1, 0⟩] })
      ([10, 20, 30, 40, 50, 60] : List Int)
      (by decide) (by decide) (by decide) (by decide) (by decide)
      (by decide)⟩

end NeuralXC

namespace NeuralXC

/-! ### C6: the reverse round trip -/

lemma unpadGo_untouched {α : Type} [Zero α] (bp : BasisPadder)
    (coeff : List (Species × PyArr α))
    (hslice : ∀ k, k < bp.mol.atoms.length →
      ∀ r ∈ rlAt bp k, sAt bp k ≤ r ∧ r < eAt bp k) :
    ∀ (n k : Nat), bp.mol.atoms.length ≤ k + n →
    ∀ (out : List α) (j : Nat),
    (∀ k2, k ≤ k2 → k2 < bp.mol.atoms.length →
      j < sAt bp k2 ∨ eAt bp k2 ≤ j) →
    (BasisPadder.unpadGo bp coeff (bp.mol.atoms.enum.drop k)
      (fun s => (bp.mol.atoms.take k).count s) out).getD j 0 =
      out.getD j 0 := by
  intro n
  induction n with
  | zero =>
      intro k hkn out j _
      rw [List.drop_eq_nil_of_le (by rw [List.enum_length]; omega)]
      rfl
  | succ n ih =>
      intro k hkn out j hout
      by_cases hklen : bp.mol.atoms.length ≤ k
      · rw [List.drop_eq_nil_of_le (by rw [List.enum_length]; omega)]
        rfl
      · have hk : k < bp.mol.atoms.length := by omega
        rw [enum_drop_cons bp.mol.atoms k hk]
        simp only [BasisPadder.unpadGo]
        have hocc : (bp.mol.atoms.take k).count (bp.mol.atoms.getD k "") =
            occAt bp k := rfl
        rw [hocc]
        have hsymk : bp.mol.atoms.getD k "" = atomSym bp k := rfl
        rw [hsymk]
        have hrk : BasisPadder.rlOfAt bp (atomSym bp k) (occAt bp k) =
            rlAt bp k := rfl
        rw [hrk]
        have hinzip : ∀ pr ∈ (rlAt bp k).zip (gatherMask
            (BasisPadder.maskOfAt bp (atomSym bp k) (occAt bp k))
            ((asMat ((dlookup coeff (atomSym bp k)).getD
              (PyArr.arr2 []))).getD (occAt bp k) [])), pr.1 ∈ rlAt bp k := by
          intro pr hpr
          exact (List.of_mem_zip (by
            rw [show ((pr.1, pr.2) : Nat × α) = pr from rfl] at *
            exact hpr)).1
        rw [writeRow_eq_plain _ _ _ (by
          intro pr hpr
          exact (hslice k hk pr.1 (hinzip pr hpr)).1)]
        have hcnt2 : BasisPadder.bump
            (fun s => (bp.mol.atoms.take k).count s) (atomSym bp k) =
            fun s => (bp.mol.atoms.take (k + 1)).count s :=
          count_take_succ bp.mol.atoms k hk
        rw [hcnt2]
        rw [ih (k + 1) (by omega) _ j
          (fun k2 hk2 hk2lt => hout k2 (by omega) hk2lt)]
        apply setfold_untouched
        intro pr hpr hprj
        have hr := hslice k hk pr.1 (hinzip pr hpr)
        rcases hout k (le_refl k) hk with hlt | hge
        · omega
        · omega

lemma zip_getD_mem {α β : Type} (d1 : α) (d2 : β) :
    ∀ (l1 : List α) (l2 : List β) (q : Nat), q < l1.length →
      q < l2.length → (l1.getD q d1, l2.getD q d2) ∈ l1.zip l2 := by
  intro l1
  induction l1 with
  | nil => intro l2 q h1 _; simp at h1
  | cons x xs ih =>
      intro l2 q h1 h2
      cases l2 with
      | nil => simp at h2
      | cons y ys =>
          cases q with
          | zero => simp [List.zip_cons_cons]
          | succ q =>
              simp only [List.zip_cons_cons, List.getD_cons_succ,
                List.mem_cons]
              right
              exact ih ys q (by simpa using h1) (by simpa using h2)

lemma unpad_value {α : Type} [Zero α] (bp : BasisPadder)
    (w : List (Species × List (List α)))
    (hrlen : ∀ k, k < bp.mol.atoms.length →
      (rlAt bp k).length = countTrues (maskAt bp k))
    (hslice : ∀ k, k < bp.mol.atoms.length →
      ∀ r ∈ rlAt bp k, sAt bp k ≤ r ∧ r < eAt bp k)
    (hnd : ∀ k, k < bp.mol.atoms.length → (rlAt bp k).Nodup)
    (hw : ∀ k, k < bp.mol.atoms.length →
      ((dlookupD w (atomSym bp k) []).getD (occAt bp k) []).length =
        (maskAt bp k).length) :
    ∀ (n k : Nat), bp.mol.atoms.length ≤ k + n →
    ∀ (out : List α), out.length = naoOf bp.mol →
    ∀ (k2 q : Nat), k ≤ k2 → k2 < bp.mol.atoms.length →
      q < (rlAt bp k2).length →
    (BasisPadder.unpadGo bp (wrapArr2 w) (bp.mol.atoms.enum.drop k)
      (fun s => (bp.mol.atoms.take k).count s) out).getD
        ((rlAt bp k2).getD q 0) 0 =
    (gatherMask (maskAt bp k2)
      ((dlookupD w (atomSym bp k2) []).getD (occAt bp k2) [])).getD q 0 := by
  intro n
  induction n with
  | zero => intro k hkn out _ k2 q hk2 hk2lt _; omega
  | succ n ih =>
      intro k hkn out hout_len k2 q hk2 hk2lt hq
      have hk : k < bp.mol.atoms.length := by omega
      rw [enum_drop_cons bp.mol.atoms k hk]
      simp only [BasisPadder.unpadGo]
      have hocc : (bp.mol.atoms.take k).count (bp.mol.atoms.getD k "") =
          occAt bp k := rfl
      rw [hocc, wrap_asMat]
      have hsymk : bp.mol.atoms.getD k "" = atomSym bp k := rfl
      rw [hsymk]
      have hdl : (dlookup w (atomSym bp k)).getD [] =
          dlookupD w (atomSym bp k) [] := rfl
      rw [hdl]
      have hmk : BasisPadder.maskOfAt bp (atomSym bp k) (occAt bp k) =
          maskAt bp k := rfl
      have hrk : BasisPadder.rlOfAt bp (atomSym bp k) (occAt bp k) =
          rlAt bp k := rfl
      rw [hmk, hrk]
      have hglen : (gatherMask (maskAt bp k)
          ((dlookupD w (atomSym bp k) []).getD (occAt bp k) [])).length =
          (rlAt bp k).length := by
        rw [gather_length _ _ (hw k hk).symm]
        exact (hrlen k hk).symm
      rw [writeRow_eq_plain _ _ _ (by
        intro pr hpr
        exact (hslice k hk pr.1 (List.of_mem_zip hpr).1).1)]
      have hcnt2 : BasisPadder.bump
          (fun s => (bp.mol.atoms.take k).count s) (atomSym bp k) =
          fun s => (bp.mol.atoms.take (k + 1)).count s :=
        count_take_succ bp.mol.atoms k hk
      rw [hcnt2]
      by_cases hke : k2 = k
      · subst hke
        have hmem : (rlAt bp k2).getD q 0 ∈ rlAt bp k2 := by
          rw [List.getD_eq_get _ _ hq]
          exact List.get_mem _ _ _
        have hbounds := hslice k2 hk _ hmem
        refine Eq.trans (unpadGo_untouched bp (wrapArr2 w) hslice n (k2 + 1)
          (by omega) _ _ ?_) ?_
        · intro k3 hk3 hk3lt
          left
          have := slice_mono bp k2 k3 (by omega)
          omega
        · apply setfold_nodup
          · rw [List.map_fst_zip _ _ (le_of_eq hglen.symm)]
            exact hnd k2 hk
          · exact zip_getD_mem 0 0 _ _ q hq (by rw [hglen]; exact hq)
          · rw [hout_len]
            exact lt_of_lt_of_le hbounds.2 (eAt_le_nao bp k2)
      · exact ih (k + 1) (by omega) _ (by rw [setfold_length]; exact hout_len)
          k2 q (by omega) hk2lt hq

end NeuralXC

namespace NeuralXC

/-- C6: for a padded mapping `w` of the correct per-species shapes,
`pad_basis (unpad_basis w)` equals `w` at every populated slot (where
`indexing_l` is `True`) and is exactly `0` at every unpopulated slot; and
the `pad_basis` output has exactly `0` at every unpopulated slot for every
input whatsoever. -/
theorem pad_unpad_populated {α : Type} [Zero α] (bp : BasisPadder)
    (w : List (Species × List (List α)))
    (hsyms : ∀ k, k < bp.mol.atoms.length → atomSym bp k ∈ bp.syms)
    (hcnt : ∀ k, k < bp.mol.atoms.length →
      dlookupD bp.sym_cnt (atomSym bp k) 0 =
        bp.mol.atoms.count (atomSym bp k))
    (hrlen : ∀ k, k < bp.mol.atoms.length →
      (rlAt bp k).length = countTrues (maskAt bp k))
    (hslice : ∀ k, k < bp.mol.atoms.length →
      ∀ r ∈ rlAt bp k, sAt bp k ≤ r ∧ r < eAt bp k)
    (hnd : ∀ k, k < bp.mol.atoms.length → (rlAt bp k).Nodup)
    (hw : ∀ k, k < bp.mol.atoms.length →
      ((dlookupD w (atomSym bp k) []).getD (occAt bp k) []).length =
        (maskAt bp k).length) :
    (∀ k, k < bp.mol.atoms.length → ∀ p : Nat,
      ((maskAt bp k).getD p false = true →
        (((dlookup (BasisPadder.pad_basis bp
            (BasisPadder.unpad_basis bp (wrapArr2 w))) (atomSym bp k)).getD
          []).getD (occAt bp k) []).getD p 0 =
          ((dlookupD w (atomSym bp k) []).getD (occAt bp k) []).getD p 0) ∧
      ((maskAt bp k).getD p false = false →
        (((dlookup (BasisPadder.pad_basis bp
            (BasisPadder.unpad_basis bp (wrapArr2 w))) (atomSym bp k)).getD
          []).getD (occAt bp k) []).getD p 0 = 0)) ∧
    (∀ (u : List α) (k : Nat), k < bp.mol.atoms.length → ∀ p : Nat,
      (maskAt bp k).getD p false = false →
      (((dlookup (BasisPadder.pad_basis bp u) (atomSym bp k)).getD
        []).getD (occAt bp k) []).getD p 0 = 0) := by
  constructor
  · intro k hk p
    have hrow := pad_basis_at bp
      (BasisPadder.unpad_basis bp (wrapArr2 w)) k hk (hsyms k hk)
      (hcnt k hk)
    have hglen : (gatherMask (maskAt bp k)
        ((dlookupD w (atomSym bp k) []).getD (occAt bp k) [])).length =
        (rlAt bp k).length := by
      rw [gather_length _ _ (hw k hk).symm]
      exact (hrlen k hk).symm
    have hvals : (rlAt bp k).map (fun r =>
        (((BasisPadder.unpad_basis bp (wrapArr2 w)).drop (sAt bp k)).take
          (eAt bp k - sAt bp k)).getD (r - sAt bp k) 0) =
        gatherMask (maskAt bp k)
          ((dlookupD w (atomSym bp k) []).getD (occAt bp k) []) := by
      apply List.ext_get (by rw [List.length_map, hglen])
      intro q hq1 hq2
      have hqr : q < (rlAt bp k).length := by
        rw [List.length_map] at hq1
        exact hq1
      rw [List.get_map]
      have hmem : (rlAt bp k).get ⟨q, hqr⟩ ∈ rlAt bp k :=
        List.get_mem _ _ _
      have hb := hslice k hk _ hmem
      rw [slice_getD _ _ _ _ hb.1 hb.2]
      have hval := unpad_value bp w hrlen hslice hnd hw
        bp.mol.atoms.length 0 (by omega)
        (List.replicate (naoOf bp.mol) 0) (by rw [List.length_replicate])
        k q (by omega) hk hqr
      simp only [List.drop_zero, List.take_zero, List.count_nil] at hval
      have hgd : (rlAt bp k).getD q 0 = (rlAt bp k).get ⟨q, hqr⟩ :=
        List.getD_eq_get _ _ hqr
      rw [hgd] at hval
      unfold BasisPadder.unpad_basis
      rw [hval]
      exact List.getD_eq_get _ _ hq2
    rw [hvals] at hrow
    constructor
    · intro hp
      rw [hrow]
      exact maskAssign_gather_getD_true _ _ p (hw k hk).symm hp
    · intro hp
      rw [hrow]
      exact maskAssign_getD_false _ _ p hp
  · intro u k hk p hp
    rw [pad_basis_at bp u k hk (hsyms k hk) (hcnt k hk)]
    exact maskAssign_getD_false _ _ p hp

end NeuralXC

namespace NeuralXC

/-- Witness for C6 on the two-species geometry: slot 4 of the O atom row
is populated (2s), slot 1 is unpopulated. -/
theorem pad_unpad_populated_witness :
    ((((dlookup (BasisPadder.pad_basis
        (buildPadder { atoms := ["O", "H"], labels :=
          [⟨0, "O", 1, 0⟩, ⟨0, "O", 2, 0⟩, ⟨0, "O", 2, 1⟩, ⟨0, "O", 2, 1⟩,
           ⟨0, "O", 2, 1⟩, ⟨1, "H", 1, 0⟩] })
        (BasisPadder.unpad_basis
          (buildPadder { atoms := ["O", "H"], labels :=
            [⟨0, "O", 1, 0⟩, ⟨0, "O", 2, 0⟩, ⟨0, "O", 2, 1⟩, ⟨0, "O", 2, 1⟩,
             ⟨0, "O", 2, 1⟩, ⟨1, "H", 1, 0⟩] })
          (wrapArr2 [("O", [[(1 : Int), 2, 3, 4, 5, 6, 7, 8]]),
            ("H", [[9]])])))
        (atomSym (buildPadder { atoms := ["O", "H"], labels :=
          [⟨0, "O", 1, 0⟩, ⟨0, "O", 2, 0⟩, ⟨0, "O", 2, 1⟩, ⟨0, "O", 2, 1⟩,
           ⟨0, "O", 2, 1⟩, ⟨1, "H", 1, 0⟩] }) 0)).getD []).getD
        (occAt (buildPadder { atoms := ["O", "H"], labels :=
          [⟨0, "O", 1, 0⟩, ⟨0, "O", 2, 0⟩, ⟨0, "O", 2, 1⟩, ⟨0, "O", 2, 1⟩,
           ⟨0, "O", 2, 1⟩, ⟨1, "H", 1, 0⟩] }) 0) []).getD 4 0 =
      ((dlookupD [("O", [[(1 : Int), 2, 3, 4, 5, 6, 7, 8]]), ("H", [[9]])]
        (atomSym (buildPadder { atoms := ["O", "H"], labels :=
          [⟨0, "O", 1, 0⟩, ⟨0, "O", 2, 0⟩, ⟨0, "O", 2, 1⟩, ⟨0, "O", 2, 1⟩,
           ⟨0, "O", 2, 1⟩, ⟨1, "H", 1, 0⟩] }) 0) []).getD
        (occAt (buildPadder { atoms := ["O", "H"], labels :=
          [⟨0, "O", 1, 0⟩, ⟨0, "O", 2, 0⟩, ⟨0, "O", 2, 1⟩, ⟨0, "O", 2, 1⟩,
           ⟨0, "O", 2, 1⟩, ⟨1, "H", 1, 0⟩] }) 0) []).getD 4 0) ∧
    ((((dlookup (BasisPadder.pad_basis
        (buildPadder { atoms := ["O", "H"], labels :=
          [⟨0, "O", 1, 0⟩, ⟨0, "O", 2, 0⟩, ⟨0, "O", 2, 1⟩, ⟨0, "O", 2, 1⟩,
           ⟨0, "O", 2, 1⟩, ⟨1, "H", 1, 0⟩] })
        (BasisPadder.unpad_basis
          (buildPadder { atoms := ["O", "H"], labels :=
            [⟨0, "O", 1, 0⟩, ⟨0, "O", 2, 0⟩, ⟨0, "O", 2, 1⟩, ⟨0, "O", 2, 1⟩,
             ⟨0, "O", 2, 1⟩, ⟨1, "H", 1, 0⟩] })
          (wrapArr2 [("O", [[(1 : Int), 2, 3, 4, 5, 6, 7, 8]]),
            ("H", [[9]])])))
        (atomSym (buildPadder { atoms := ["O", "H"], labels :=
          [⟨0, "O", 1, 0⟩, ⟨0, "O", 2, 0⟩, ⟨0, "O", 2, 1⟩, ⟨0, "O", 2, 1⟩,
           ⟨0, "O", 2, 1⟩, ⟨1, "H", 1, 0⟩] }) 0)).getD []).getD
        (occAt (buildPadder { atoms := ["O", "H"], labels :=
          [⟨0, "O", 1, 0⟩, ⟨0, "O", 2, 0⟩, ⟨0, "O", 2, 1⟩, ⟨0, "O", 2, 1⟩,
           ⟨0, "O", 2, 1⟩, ⟨1, "H", 1, 0⟩] }) 0) []).getD 1 0 = 0) ∧
    ((((dlookup (BasisPadder.pad_basis
        (buildPadder { atoms := ["O", "H"], labels :=
          [⟨0, "O", 1, 0⟩, ⟨0, "O", 2, 0⟩, ⟨0, "O", 2, 1⟩, ⟨0, "O", 2, 1⟩,
           ⟨0, "O", 2, 1⟩, ⟨1, "H", 1, 0⟩] })
        ([99, 98, 97, 96, 95, 94] : List Int))
        (atomSym (buildPadder { atoms := ["O", "H"], labels :=
          [⟨0, "O", 1, 0⟩, ⟨0, "O", 2, 0⟩, ⟨0, "O", 2, 1⟩, ⟨0, "O", 2, 1⟩,
           ⟨0, "O", 2, 1⟩, ⟨1, "H", 1, 0⟩] }) 0)).getD []).getD
        (occAt (buildPadder { atoms := ["O", "H"], labels :=
          [⟨0, "O", 1, 0⟩, ⟨0, "O", 2, 0⟩, ⟨0, "O", 2, 1⟩, ⟨0, "O", 2, 1⟩,
           ⟨0, "O", 2, 1⟩, ⟨1, "H", 1, 0⟩] }) 0) []).getD 1 0 = 0) := by
  have hmain := pad_unpad_populated
    (buildPadder { atoms := ["O", "H"], labels :=
      [⟨0, "O", 1, 0⟩, ⟨0, "O", 2, 0⟩, ⟨0, "O", 2, 1⟩, ⟨0, "O", 2, 1⟩,
       ⟨0, "O", 2, 1⟩, ⟨1, "H", 1, 0⟩] })
    [("O", [[(1 : Int), 2, 3, 4, 5, 6, 7, 8]]), ("H", [[9]])]
    (by decide) (by decide) (by decide) (by decide) (by decide) (by decide)
  exact ⟨(hmain.1 0 (by decide) 4).1 (by decide),
    (hmain.1 0 (by decide) 1).2 (by decide),
    hmain.2 ([99, 98, 97, 96, 95, 94] : List Int) 0 (by decide) 1
      (by decide)⟩

end NeuralXC
